import Mathlib

/-!
Verification development for the intent-resolution and dispatch engine of the
`openflow_with_llm` repository.  Text is modelled as lists of Unicode code
points (`Txt`); Python's `re` module is modelled by a small backtracking
regular-expression engine with Python's leftmost / greedy / lazy priorities;
confidence scores (Python floats of the form `n * 0.3`, `0.7`, `0.8`) are
modelled as exact rationals, which order the concrete values occurring in the
program exactly as IEEE doubles do.
-/

namespace OpenFlow

/-- Text as a list of Unicode code points (Python `str`). -/
abbrev Txt : Type := List Nat

/-- Code points of a Lean string literal. -/
def codes (s : String) : Txt := s.data.map Char.toNat

/-- Python `str.lower` on a single ASCII code point. -/
def lowerCode (c : Nat) : Nat := if 65 ≤ c ∧ c ≤ 90 then c + 32 else c

/-- Python `str.lower` (ASCII range; the repository's patterns are ASCII). -/
def pyLower (s : Txt) : Txt := s.map lowerCode

/-- Python whitespace characters recognised by `str.strip` and `\s` (ASCII part). -/
def pyWs : List Nat := [32, 9, 10, 13, 12, 11]

/-- Python `str.strip()` (no arguments): drop leading and trailing whitespace. -/
def pyStrip (s : Txt) : Txt :=
  ((s.dropWhile (fun c => pyWs.contains c)).reverse.dropWhile
    (fun c => pyWs.contains c)).reverse

/-- Python `str.strip(chars)`: drop leading and trailing characters from `cs`. -/
def pyStripChars (cs : List Nat) (s : Txt) : Txt :=
  ((s.dropWhile (fun c => cs.contains c)).reverse.dropWhile
    (fun c => cs.contains c)).reverse

/-! Section: A Python-`re`-faithful regular expression engine

Only the constructs used by `intent_processor.py` are embedded: literal
characters, `.`, `\s`, character classes (positive and negated), alternation,
greedy `*` / `+` / `?`, lazy `+?`, and a single capturing group per pattern
(no pattern in the source has more than one).  Matching follows Python's
backtracking semantics: alternatives are tried left to right, greedy
quantifiers try the longer repetition first, lazy quantifiers the shorter,
`re.search` scans start positions left to right, and `re.findall` collects
non-overlapping matches, resuming after each match's end. -/

/-- Character classes. `any` is `.` (anything but newline). -/
inductive CCls where
  | any
  | ws
  | one (c : Nat)
  | among (cs : List Nat)
  | notAmong (cs : List Nat)
deriving DecidableEq

def CCls.mem : CCls → Nat → Bool
  | .any, c => c ≠ 10
  | .ws, c => pyWs.contains c
  | .one a, c => c = a
  | .among cs, c => cs.contains c
  | .notAmong cs, c => ! cs.contains c

/-- Regular expressions.  `star` is greedy, `starL` lazy; `grp` is the single
capturing group. -/
inductive Rx where
  | eps
  | cls (cl : CCls)
  | seq (a b : Rx)
  | alt (a b : Rx)
  | star (a : Rx)
  | starL (a : Rx)
  | opt (a : Rx)
  | grp (a : Rx)
deriving DecidableEq

def rxSize : Rx → Nat
  | .eps => 1
  | .cls _ => 1
  | .seq a b => rxSize a + rxSize b + 1
  | .alt a b => rxSize a + rxSize b + 1
  | .star a => rxSize a + 1
  | .starL a => rxSize a + 1
  | .opt a => rxSize a + 1
  | .grp a => rxSize a + 1

/-- Backtracking matcher in continuation-passing style, with fuel bounding the
nesting depth.  The continuation receives the remaining input and the capture
(if the capturing group has matched).  Priorities mirror Python's `re`. -/
def mrun : Nat → Rx → Txt → Option Txt →
    (Txt → Option Txt → Option (Txt × Option Txt)) → Option (Txt × Option Txt)
  | 0, _, _, _, _ => none
  | f + 1, r, s, caps, k =>
    match r with
    | .eps => k s caps
    | .cls cl =>
      match s with
      | [] => none
      | c :: rest => if cl.mem c then k rest caps else none
    | .seq a b => mrun f a s caps (fun s1 c1 => mrun f b s1 c1 k)
    | .alt a b => (mrun f a s caps k).orElse (fun _ => mrun f b s caps k)
    | .star a =>
      (mrun f a s caps (fun s1 c1 =>
        if s1.length < s.length then mrun f (.star a) s1 c1 k else k s1 c1)).orElse
        (fun _ => k s caps)
    | .starL a =>
      (k s caps).orElse (fun _ =>
        mrun f a s caps (fun s1 c1 =>
          if s1.length < s.length then mrun f (.starL a) s1 c1 k else none))
    | .opt a => (mrun f a s caps k).orElse (fun _ => k s caps)
    | .grp a => mrun f a s caps (fun s1 _ =>
        k s1 (some (s.take (s.length - s1.length))))

/-- Fuel sufficient for the patterns and inputs of this repository. -/
def rxFuel (r : Rx) (s : Txt) : Nat := (rxSize r + 2) * (s.length + 2) * 2

/-- Try to match `r` at the very start of `s`; on success return the number of
consumed characters and the capture. -/
def matchHere (r : Rx) (s : Txt) : Option (Nat × Option Txt) :=
  match mrun (rxFuel r s) r s none (fun rest caps => some (rest, caps)) with
  | none => none
  | some (rest, caps) => some (s.length - rest.length, caps)

/-- Model of `re.search`: scan start positions left to right; return the suffix at the
match position together with consumed length and capture. -/
def searchStep (r : Rx) : Txt → Option (Txt × Nat × Option Txt)
  | [] =>
    match matchHere r [] with
    | none => none
    | some (n, c) => some ([], n, c)
  | c :: t =>
    match matchHere r (c :: t) with
    | none => searchStep r t
    | some (n, cap) => some (c :: t, n, cap)

/-- Whether `re.search(r, s)` finds a match. -/
def rsearch (r : Rx) (s : Txt) : Bool := (searchStep r s).isSome

/-- Model of `re.search(r, s).group(1)`, when the search succeeds. -/
def searchGroup1 (r : Rx) (s : Txt) : Option Txt :=
  match searchStep r s with
  | none => none
  | some (_, _, cap) => cap

/-- Model of `re.findall`: captures (for one-group patterns) or `none` placeholders (for
group-less patterns) of the non-overlapping matches, left to right. -/
def findallAux (r : Rx) : Nat → Txt → List (Option Txt)
  | 0, _ => []
  | f + 1, s =>
    match searchStep r s with
    | none => []
    | some (s', n, cap) => cap :: findallAux r f (s'.drop (max n 1))

def findall (r : Rx) (s : Txt) : List (Option Txt) := findallAux r (s.length + 1) s

/-- Model of `len(re.findall(r, s))`: the number of non-overlapping matches. -/
def countMatches (r : Rx) (s : Txt) : Nat := (findall r s).length

/-! Pattern-building helpers. -/

/-- Concatenation of a list of regexes. -/
def cats (l : List Rx) : Rx := l.foldr Rx.seq Rx.eps

/-- A literal string as a regex. -/
def lit (s : String) : Rx := cats ((codes s).map (fun c => Rx.cls (.one c)))

/-- Model of `.*` (greedy). -/
def dotStar : Rx := Rx.star (Rx.cls .any)

/-- Model of `\s*`. -/
def wsStar : Rx := Rx.star (Rx.cls .ws)

/-- Model of `\s+`. -/
def wsPlus : Rx := Rx.seq (Rx.cls .ws) (Rx.star (Rx.cls .ws))

/-- Model of `(.+)` (greedy, capturing). -/
def grpDotPlus : Rx := Rx.grp (Rx.seq (Rx.cls .any) (Rx.star (Rx.cls .any)))

/-- Model of `(.+?)` (lazy, capturing). -/
def grpDotPlusLazy : Rx := Rx.grp (Rx.seq (Rx.cls .any) (Rx.starL (Rx.cls .any)))

/-- Model of `s?`: optional literal `s`. -/
def optS : Rx := Rx.opt (Rx.cls (.one 115))

/-! Section: The intent catalog (`NiFiIntent` in `intent_processor.py`) -/

inductive NiFiIntent where
  | list_process_groups | create_process_group | delete_process_group
  | start_process_group | stop_process_group
  | list_processors | create_processor | delete_processor
  | start_processor | stop_processor | configure_processor
  | list_connections | create_connection | delete_connection
  | list_templates | create_template | instantiate_template
  | search_components
  | get_status | get_flow_status | monitor_flow
  | get_documentation | get_processor_info
  | help | unknown
deriving DecidableEq

/-- The `.value` string of each enum member. -/
def NiFiIntent.value : NiFiIntent → Txt
  | .list_process_groups => codes "list_process_groups"
  | .create_process_group => codes "create_process_group"
  | .delete_process_group => codes "delete_process_group"
  | .start_process_group => codes "start_process_group"
  | .stop_process_group => codes "stop_process_group"
  | .list_processors => codes "list_processors"
  | .create_processor => codes "create_processor"
  | .delete_processor => codes "delete_processor"
  | .start_processor => codes "start_processor"
  | .stop_processor => codes "stop_processor"
  | .configure_processor => codes "configure_processor"
  | .list_connections => codes "list_connections"
  | .create_connection => codes "create_connection"
  | .delete_connection => codes "delete_connection"
  | .list_templates => codes "list_templates"
  | .create_template => codes "create_template"
  | .instantiate_template => codes "instantiate_template"
  | .search_components => codes "search_components"
  | .get_status => codes "get_status"
  | .get_flow_status => codes "get_flow_status"
  | .monitor_flow => codes "monitor_flow"
  | .get_documentation => codes "get_documentation"
  | .get_processor_info => codes "get_processor_info"
  | .help => codes "help"
  | .unknown => codes "unknown"

/-- Model of `NiFiIntent(value)`: the enum member whose `.value` equals the string. -/
def intentOfValue (s : Txt) : Option NiFiIntent :=
  [NiFiIntent.list_process_groups, .create_process_group, .delete_process_group,
   .start_process_group, .stop_process_group,
   .list_processors, .create_processor, .delete_processor,
   .start_processor, .stop_processor, .configure_processor,
   .list_connections, .create_connection, .delete_connection,
   .list_templates, .create_template, .instantiate_template,
   .search_components, .get_status, .get_flow_status, .monitor_flow,
   .get_documentation, .get_processor_info, .help, .unknown].find?
    (fun i => i.value = s)

/-- Helper for `x.*y` catalog patterns. -/
def dsPat (a b : String) : Rx := cats [lit a, dotStar, lit b]

/-- Helper for `x.*process\s*group` patterns. -/
def pgPat (a : String) : Rx := cats [lit a, dotStar, lit "process", wsStar, lit "group"]

/-- Helper for `x.*process\s*groups?` patterns. -/
def pgsPat (a : String) : Rx := Rx.seq (pgPat a) optS

/-- Helper for `x.*processors?` patterns. -/
def prsPat (a : String) : Rx := cats [lit a, dotStar, lit "processor", optS]

/-- Model of `IntentProcessor._build_intent_patterns`: the catalog in source (dict
insertion) order, each pattern translated from its regex literal. -/
def intentPatterns : List (NiFiIntent × List Rx) :=
  [ (.list_process_groups, [pgsPat "list", pgsPat "show", pgsPat "get", pgsPat "what"]),
    (.create_process_group, [pgPat "create", pgPat "make", pgPat "add", pgPat "new"]),
    (.delete_process_group, [pgPat "delete", pgPat "remove", pgPat "drop"]),
    (.start_process_group, [pgPat "start", pgPat "run", pgPat "begin"]),
    (.stop_process_group, [pgPat "stop", pgPat "halt", pgPat "pause"]),
    (.list_processors, [prsPat "list", prsPat "show", prsPat "get", prsPat "what"]),
    (.create_processor, [dsPat "create" "processor", dsPat "make" "processor",
      dsPat "add" "processor", dsPat "new" "processor"]),
    (.start_processor, [dsPat "start" "processor", dsPat "run" "processor",
      dsPat "begin" "processor"]),
    (.stop_processor, [dsPat "stop" "processor", dsPat "halt" "processor",
      dsPat "pause" "processor"]),
    (.list_connections, [Rx.seq (dsPat "list" "connection") optS,
      Rx.seq (dsPat "show" "connection") optS, Rx.seq (dsPat "get" "connection") optS]),
    (.create_connection, [dsPat "create" "connection",
      Rx.seq (lit "connect") dotStar, Rx.seq (lit "link") dotStar]),
    (.list_templates, [Rx.seq (dsPat "list" "template") optS,
      Rx.seq (dsPat "show" "template") optS, Rx.seq (dsPat "get" "template") optS]),
    (.create_template, [dsPat "create" "template", dsPat "make" "template",
      dsPat "save" "template"]),
    (.instantiate_template, [dsPat "instantiate" "template", dsPat "use" "template",
      dsPat "apply" "template"]),
    (.search_components, [Rx.seq (lit "search") dotStar, Rx.seq (lit "find") dotStar,
      cats [lit "look", wsPlus, lit "for", dotStar]]),
    (.get_status, [lit "status", lit "health", dsPat "how" "doing", dsPat "what" "status"]),
    (.get_flow_status, [dsPat "flow" "status", dsPat "pipeline" "status",
      dsPat "dataflow" "status"]),
    (.monitor_flow, [dsPat "monitor" "flow", dsPat "watch" "flow", dsPat "track" "flow"]),
    (.get_documentation, [Rx.seq (lit "help") dotStar, Rx.seq (lit "documentation") dotStar,
      Rx.seq (lit "docs") dotStar, dsPat "how" "use", dsPat "what" "is"]),
    (.get_processor_info, [cats [dotStar, lit "processor", dotStar, lit "info"],
      cats [dotStar, lit "processor", dotStar, lit "documentation"],
      cats [lit "what", dotStar, lit "does", dotStar, lit "processor"]]),
    (.help, [lit "help", lit "usage", Rx.seq (lit "command") optS,
      cats [lit "what", dotStar, lit "can", dotStar, lit "do"]]) ]

/-! Section: `IntentParameters` and `ProcessedIntent` -/

/-- Values of the open-ended Python `Any` maps (parsed JSON). -/
inductive JVal where
  | null
  | jbool (b : Bool)
  | jnum (q : ℚ)
  | jstr (s : Txt)
  | jarr (xs : List JVal)
  | jobj (fields : List (Txt × JVal))

/-- Model of `IntentParameters` (pydantic model): optional fields, `process_group_id`
defaulting to `"root"`, map/list fields defaulting to empty. -/
structure IntentParameters where
  process_group_id : Option Txt := some (codes "root")
  process_group_name : Option Txt := none
  processor_name : Option Txt := none
  processor_type : Option Txt := none
  processor_id : Option Txt := none
  connection_name : Option Txt := none
  template_name : Option Txt := none
  search_query : Option Txt := none
  properties : Option (List (Txt × JVal)) := some []
  relationships : Option (List Txt) := some []
  source_id : Option Txt := none
  destination_id : Option Txt := none
  position : Option (List (Txt × ℚ)) := none
  additional_params : Option (List (Txt × JVal)) := some []

/-- Model of `ProcessedIntent`.  `confidence` is a rational standing for the Python
float; every concrete confidence in this program is ordered identically by
rationals and by IEEE doubles. -/
structure ProcessedIntent where
  intent : NiFiIntent
  parameters : IntentParameters
  confidence : ℚ
  raw_query : Txt
  explanation : Option Txt := none

/-! Section: `IntentProcessor._extract_parameters_from_patterns` -/

/-- Model of `["\']([^"\']+)["\']` — the quoted-name pattern. -/
def quotedRx : Rx :=
  cats [Rx.cls (.among [34, 39]),
        Rx.grp (Rx.seq (Rx.cls (.notAmong [34, 39])) (Rx.star (Rx.cls (.notAmong [34, 39])))),
        Rx.cls (.among [34, 39])]

/-- The processor-type table, in source order: fuzzy phrase pattern to
canonical processor class name. -/
def processorTypePatterns : List (Rx × Txt) :=
  [ (Rx.alt (lit "getfile") (cats [lit "get", wsPlus, lit "file"]),
      codes "org.apache.nifi.processors.standard.GetFile"),
    (Rx.alt (lit "putfile") (cats [lit "put", wsPlus, lit "file"]),
      codes "org.apache.nifi.processors.standard.PutFile"),
    (Rx.alt (lit "gethttp") (cats [lit "get", wsPlus, lit "http"]),
      codes "org.apache.nifi.processors.standard.GetHTTP"),
    (Rx.alt (lit "puthttp") (cats [lit "put", wsPlus, lit "http"]),
      codes "org.apache.nifi.processors.standard.PutHTTP"),
    (Rx.alt (dsPat "kafka" "consume") (dsPat "consume" "kafka"),
      codes "org.apache.nifi.processors.kafka.pubsub.ConsumeKafka_2_6"),
    (Rx.alt (dsPat "kafka" "publish") (dsPat "publish" "kafka"),
      codes "org.apache.nifi.processors.kafka.pubsub.PublishKafka_2_6"),
    (Rx.alt (lit "jolt") (dsPat "transform" "json"),
      codes "org.apache.nifi.processors.standard.JoltTransformJSON"),
    (dsPat "route" "attribute",
      codes "org.apache.nifi.processors.standard.RouteOnAttribute") ]

/-- The search-term patterns, in source order. -/
def searchPatterns : List Rx :=
  [ cats [lit "search", wsPlus, lit "for", wsPlus, grpDotPlus],
    cats [lit "find", wsPlus, grpDotPlus],
    cats [lit "look", wsPlus, lit "for", wsPlus, grpDotPlus] ]

/-- The process-group reference patterns, in source order:
`in\s+(?:the\s+)?(.+?)\s+(?:process\s+)?group` and
`(?:process\s+)?group\s+(.+)`. -/
def pgRefPatterns : List Rx :=
  [ cats [lit "in", wsPlus, Rx.opt (cats [lit "the", wsPlus]), grpDotPlusLazy,
      wsPlus, Rx.opt (cats [lit "process", wsPlus]), lit "group"],
    cats [Rx.opt (cats [lit "process", wsPlus]), lit "group", wsPlus, grpDotPlus] ]

/-- First element of `ps` whose pattern `re.search`-matches `q`. -/
def firstMatching {α : Type} (q : Txt) (sel : α → Rx) (ps : List α) : Option α :=
  ps.find? (fun p => rsearch (sel p) q)

/-- Model of `IntentProcessor._extract_parameters_from_patterns`, step by step in
source order: quoted names, processor types, search terms, process-group
references (last writer wins on `process_group_name`). -/
def extractParameters (q : Txt) (intent : NiFiIntent) : IntentParameters :=
  let p0 : IntentParameters := {}
  -- names in quotes
  let nameMatches := (findall quotedRx q).map (fun o => o.getD [])
  let p1 :=
    match nameMatches with
    | [] => p0
    | nm :: _ =>
      if intent = .create_process_group ∨ intent = .start_process_group ∨
          intent = .stop_process_group then
        { p0 with process_group_name := some nm }
      else if intent = .create_processor ∨ intent = .start_processor ∨
          intent = .stop_processor then
        { p0 with processor_name := some nm }
      else if intent = .create_template ∨ intent = .instantiate_template then
        { p0 with template_name := some nm }
      else p0
  -- processor types (first matching table entry wins)
  let p2 :=
    match firstMatching q (fun e => e.1) processorTypePatterns with
    | some e => { p1 with processor_type := some e.2 }
    | none => p1
  -- search queries
  let p3 :=
    if intent = .search_components then
      match firstMatching q id searchPatterns with
      | some pat =>
        match searchGroup1 pat q with
        | some g => { p2 with search_query := some (pyStrip g) }
        | none => p2
      | none => p2
    else p2
  -- process group references (break fires on the first *matching* pattern,
  -- whether or not the captured name is one of the reserved defaults)
  match firstMatching q id pgRefPatterns with
  | some pat =>
    match searchGroup1 pat q with
    | some g =>
      let groupName := pyStripChars [34, 39] (pyStrip g)
      if pyLower groupName = codes "root" ∨ pyLower groupName = codes "main" ∨
          pyLower groupName = codes "default" then p3
      else { p3 with process_group_name := some groupName }
    | none => p3
  | none => p3

/-! Section: `IntentProcessor._process_with_patterns` -/

/-- The raw score of one pattern: `len(re.findall(pattern, query)) * 0.3`,
with the float `0.3` modelled as the exact rational `3/10` (the finitely many
values `n * 0.3`, `0.7`, `0.8` occurring in this program are ordered
identically as IEEE doubles and as rationals). -/
def patScore (p : Rx) (q : Txt) : ℚ := mkRat (3 * countMatches p q) 10

/-- One pattern step of the running-best loop of `_process_with_patterns`
(source lines 376-381): a matching pattern's raw score is compared with
strict `>` against the stored best, and the stored best is capped at `0.8`
when updated. -/
def patStep (i : NiFiIntent) (q : Txt) (acc : Option NiFiIntent × ℚ) (p : Rx) :
    Option NiFiIntent × ℚ :=
  if rsearch p q then
    if patScore p q > acc.2 then (some i, min (patScore p q) (mkRat 8 10)) else acc
  else acc

/-- The double loop of `_process_with_patterns` over the catalog. -/
def bestFold (catalog : List (NiFiIntent × List Rx)) (q : Txt) :
    Option NiFiIntent × ℚ :=
  catalog.foldl (fun acc ip => ip.2.foldl (patStep ip.1 q) acc) (none, 0)

/-- Spec-side scoring (for the refinement comparison of claim C5): the score
of one intent is the *maximum* over its patterns of `count * 0.3`. -/
def specIntentScore (ps : List Rx) (q : Txt) : ℚ :=
  ps.foldl (fun m p => max m (patScore p q)) 0

/-- One step of the spec-side running best over intents (claim C5's words):
strict greater-than on the per-intent maximum scores, ties keeping the
earliest-found intent in catalog order. -/
def specStep (q : Txt) (acc : Option NiFiIntent × ℚ) (ip : NiFiIntent × List Rx) :
    Option NiFiIntent × ℚ :=
  if specIntentScore ip.2 q > acc.2 then (some ip.1, specIntentScore ip.2 q) else acc

def specBestFold (catalog : List (NiFiIntent × List Rx)) (q : Txt) :
    Option NiFiIntent × ℚ :=
  catalog.foldl (specStep q) (none, 0)

/-- Spec-side final answer of the Pattern Matcher per claim C5: the best
intent, with final confidence `min best_score 0.8`. -/
def specPatternBest (q : Txt) : Option NiFiIntent × ℚ :=
  let b := specBestFold intentPatterns (pyStrip (pyLower q))
  (b.1, min b.2 (mkRat 8 10))

/-- Model of `IntentProcessor._process_with_patterns`. -/
def processWithPatterns (query : Txt) : ProcessedIntent :=
  let ql := pyStrip (pyLower query)
  let best := bestFold intentPatterns ql
  let bestMatch := best.1.getD .unknown
  let bestConfidence := best.2
  { intent := bestMatch
    parameters := extractParameters ql bestMatch
    confidence := bestConfidence
    raw_query := query
    explanation := some (codes "Matched pattern for " ++ bestMatch.value) }

/-! Section: `IntentProcessor.process_query` — the Intent Resolver

The classifier tier (`_process_with_llm`) performs a network round trip; its
outcome as observed by `process_query` is one of: no provider configured,
an exception raised (caught and logged), or a returned `ProcessedIntent`. -/

inductive ClassifierOutcome where
  | noProvider
  | raised
  | returned (r : ProcessedIntent)

/-- Model of `IntentProcessor.process_query` (source lines 253-275): try the LLM tier,
accept its result only when `confidence > 0.7`, otherwise return the pattern
tier's result unchanged. -/
def resolveQuery (outcome : ClassifierOutcome) (query : Txt) : ProcessedIntent :=
  match outcome with
  | .noProvider => processWithPatterns query
  | .raised => processWithPatterns query
  | .returned r =>
    if mkRat 7 10 < r.confidence then r else processWithPatterns query

/-! Section: `IntentProcessor._parse_llm_response` — the Classifier Adapter's parser

`json.loads` is external; its outcome is either a decode failure (modelled as
`none`) or a parsed JSON value.  The Python exception kinds that matter are
modelled explicitly: the source's `except` clause catches exactly
`json.JSONDecodeError`, `ValueError` (which includes pydantic v1's
`ValidationError` and enum lookup failures) and `KeyError`. -/

inductive ExcKind where
  | jsonDecodeError
  | valueError
  | keyError
  | typeError
  | attributeError
deriving DecidableEq

/-- The exception kinds caught by `_parse_llm_response` (source line 359). -/
def caughtExc : ExcKind → Bool
  | .jsonDecodeError => true
  | .valueError => true
  | .keyError => true
  | .typeError => false
  | .attributeError => false

/-- Model of `data.get(key, ...)`: succeeds only on a dict; on any other value Python
raises `AttributeError` (`.get` does not exist). -/
def pyDictGet (v : JVal) (key : Txt) : Except ExcKind (Option JVal) :=
  match v with
  | .jobj fields =>
    match fields.find? (fun f => f.1 = key) with
    | some f => .ok (some f.2)
    | none => .ok none
  | _ => .error .attributeError

/-- Decimal digit value of a code point. -/
def digitVal (c : Nat) : Option Nat :=
  if 48 ≤ c ∧ c ≤ 57 then some (c - 48) else none

/-- Split a leading run of decimal digits off a text. -/
def takeDigits : Txt → (List Nat × Txt)
  | [] => ([], [])
  | c :: t =>
    match digitVal c with
    | some d =>
      let r := takeDigits t
      (d :: r.1, r.2)
    | none => ([], c :: t)

def digitsToNat (ds : List Nat) : Nat := ds.foldl (fun a d => 10 * a + d) 0

/-- Parse a plain decimal literal (optional sign, digits, optional fraction)
as Python's `float` accepts it. -/
def parseDecimal (s : Txt) : Option ℚ :=
  let core : Txt → Option ℚ := fun s1 =>
    let ir := takeDigits s1
    match ir.2 with
    | [] => if ir.1.isEmpty then none else some (mkRat (digitsToNat ir.1) 1)
    | 46 :: t =>
      let fr := takeDigits t
      if fr.2.isEmpty then
        if ir.1.isEmpty ∧ fr.1.isEmpty then none
        else some (mkRat (digitsToNat ir.1 * 10 ^ fr.1.length + digitsToNat fr.1)
          (10 ^ fr.1.length))
      else none
    | _ => none
  match s with
  | 43 :: t => core t
  | 45 :: t => (core t).map (fun q => -q)
  | t => core t

/-- Model of `float(x)` on a JSON value: numbers and booleans convert, strings are
parsed as decimal literals (`ValueError` when malformed), `None` and
containers raise `TypeError`.  Exotic accepted spellings (exponents,
`inf`/`nan`) are not modelled; they would parse in Python but are treated as
malformed here — both outcomes are on the caught, non-raising side of every
claim below. -/
def pyFloat (v : JVal) : Except ExcKind ℚ :=
  match v with
  | .jnum q => .ok q
  | .jbool b => .ok (if b then 1 else 0)
  | .jstr s => match parseDecimal (pyStrip s) with
    | some q => .ok q
    | none => .error .valueError
  | .null => .error .typeError
  | .jarr _ => .error .typeError
  | .jobj _ => .error .typeError

/-- Model of `NiFiIntent(data.get("intent", NiFiIntent.UNKNOWN))`: the absent-key
default is the `UNKNOWN` member itself (and `NiFiIntent(member)` is the
member); a string is looked up among the enum values; any other value makes
the enum constructor raise `ValueError`. -/
def parseIntentField (v : Option JVal) : Except ExcKind NiFiIntent :=
  match v with
  | none => .ok .unknown
  | some (.jstr s) =>
    match intentOfValue s with
    | some i => .ok i
    | none => .error .valueError
  | some _ => .error .valueError

/-- The value of a JSON-object field, if present. -/
def fieldOr (fields : List (Txt × JVal)) (key : String) : Option JVal :=
  (fields.find? (fun f => f.1 = codes key)).map (fun f => f.2)

/-- Pydantic v1 validation of an `Optional[str]` field.  (The v1 coercion of
numeric values to their decimal string is not reproduced; a numeric value is
treated as a validation failure.  Both outcomes are `ValueError`-side for
every claim below, which only distinguish caught from uncaught kinds.) -/
def parseOptStr (v : JVal) : Except ExcKind (Option Txt) :=
  match v with
  | .jstr s => .ok (some s)
  | .null => .ok none
  | _ => .error .valueError

def parseOptStrField (fields : List (Txt × JVal)) (key : String) (dflt : Option Txt) :
    Except ExcKind (Option Txt) :=
  match fieldOr fields key with
  | none => .ok dflt
  | some v => parseOptStr v

/-- Pydantic v1 validation of an `Optional[Dict[str, Any]]` field. -/
def parseOptDictField (fields : List (Txt × JVal)) (key : String)
    (dflt : Option (List (Txt × JVal))) : Except ExcKind (Option (List (Txt × JVal))) :=
  match fieldOr fields key with
  | none => .ok dflt
  | some (.jobj fs) => .ok (some fs)
  | some .null => .ok none
  | some _ => .error .valueError

/-- Pydantic v1 validation of the `Optional[List[str]]` relationships field. -/
def parseOptStrListField (fields : List (Txt × JVal)) (key : String)
    (dflt : Option (List Txt)) : Except ExcKind (Option (List Txt)) :=
  match fieldOr fields key with
  | none => .ok dflt
  | some (.jarr xs) =>
    (xs.mapM (fun x => match x with
      | JVal.jstr s => Except.ok s
      | _ => Except.error ExcKind.valueError)).map some
  | some .null => .ok none
  | some _ => .error .valueError

/-- Pydantic v1 validation of the `Optional[Dict[str, float]]` position field. -/
def parsePositionField (fields : List (Txt × JVal)) :
    Except ExcKind (Option (List (Txt × ℚ))) :=
  match fieldOr fields "position" with
  | none => .ok none
  | some (.jobj fs) =>
    (fs.mapM (fun (f : Txt × JVal) => match f.2 with
      | JVal.jnum q => Except.ok (f.1, q)
      | _ => Except.error ExcKind.valueError)).map some
  | some .null => .ok none
  | some _ => .error .valueError

/-- Model of `IntentParameters(**fields)`: pydantic v1 builds the model, validating
each provided known field (unknown keys are ignored by the v1 default
config); every validation failure is a `ValidationError`, a `ValueError`
subclass. -/
def buildParams (fields : List (Txt × JVal)) : Except ExcKind IntentParameters := do
  let pgid ← parseOptStrField fields "process_group_id" (some (codes "root"))
  let pgname ← parseOptStrField fields "process_group_name" none
  let prname ← parseOptStrField fields "processor_name" none
  let prtype ← parseOptStrField fields "processor_type" none
  let prid ← parseOptStrField fields "processor_id" none
  let cname ← parseOptStrField fields "connection_name" none
  let tname ← parseOptStrField fields "template_name" none
  let squery ← parseOptStrField fields "search_query" none
  let props ← parseOptDictField fields "properties" (some [])
  let rels ← parseOptStrListField fields "relationships" (some [])
  let sid ← parseOptStrField fields "source_id" none
  let did ← parseOptStrField fields "destination_id" none
  let pos ← parsePositionField fields
  let addl ← parseOptDictField fields "additional_params" (some [])
  return { process_group_id := pgid, process_group_name := pgname,
           processor_name := prname, processor_type := prtype,
           processor_id := prid, connection_name := cname,
           template_name := tname, search_query := squery,
           properties := props, relationships := rels,
           source_id := sid, destination_id := did,
           position := pos, additional_params := addl }

/-- Model of `ProcessedIntent(...)`: pydantic validates `0 ≤ confidence ≤ 1`
(`Field(ge=0.0, le=1.0)`); a violation is a `ValidationError`
(`ValueError`). -/
def mkProcessedIntent (i : NiFiIntent) (p : IntentParameters) (conf : ℚ) (q : Txt)
    (expl : Option Txt) : Except ExcKind ProcessedIntent :=
  if 0 ≤ conf ∧ conf ≤ 1 then
    .ok { intent := i, parameters := p, confidence := conf, raw_query := q,
          explanation := expl }
  else .error .valueError

/-- The `try` body of `_parse_llm_response` after `json.loads` succeeded,
in source evaluation order: intent, parameters, confidence, explanation,
then the `ProcessedIntent` construction. -/
def innerParse (data : JVal) (originalQuery : Txt) : Except ExcKind ProcessedIntent := do
  let intentV ← pyDictGet data (codes "intent")
  let intent ← parseIntentField intentV
  let paramsV ← pyDictGet data (codes "parameters")
  let params ←
    match paramsV with
    | none => buildParams []
    | some (JVal.jobj fs) => buildParams fs
    | some _ => Except.error ExcKind.typeError  -- `**` of a non-mapping
  let confV ← pyDictGet data (codes "confidence")
  let conf ←
    match confV with
    | none => Except.ok (mkRat 1 2)  -- default 0.5
    | some v => pyFloat v
  let explV ← pyDictGet data (codes "explanation")
  let expl ←
    match explV with
    | none => Except.ok (some ([] : Txt))  -- default ""
    | some (JVal.jstr s) => Except.ok (some s)
    | some JVal.null => Except.ok none
    | some _ => Except.error ExcKind.valueError
  mkProcessedIntent intent params conf originalQuery expl

/-- The Unknown/0.0 fallback produced by the `except` clause. -/
def parseFallback (q : Txt) : ProcessedIntent :=
  { intent := .unknown, parameters := {}, confidence := 0, raw_query := q,
    explanation := some (codes "Failed to parse LLM response") }

/-- Model of `IntentProcessor._parse_llm_response`: `loads = none` stands for a
`json.JSONDecodeError` from `json.loads`; the `except` clause catches exactly
the kinds in `caughtExc` and converts them to the fallback; anything else
propagates. -/
def parseLLMResponse (loads : Option JVal) (originalQuery : Txt) :
    Except ExcKind ProcessedIntent :=
  let inner : Except ExcKind ProcessedIntent :=
    match loads with
    | none => .error .jsonDecodeError
    | some v => innerParse v originalQuery
  match inner with
  | .ok r => .ok r
  | .error e => if caughtExc e then .ok (parseFallback originalQuery) else .error e

/-! Section: `NiFiAPIClient._make_request` (`api_client.py` lines 145-197)

The HTTP transport is external; the outcome of attempt `i` is either a
transport-level failure (`httpx.RequestError`) or an HTTP response with a
status code and an optional body (`none` = empty content).  The source's
retry loop runs `max_retries` times: a response with status ≥ 400 raises
`NiFiAPIError` (uncaught by the `except httpx.RequestError` clause, hence
terminal), a response below 400 returns the body (or `{}` when empty), and a
transport failure on the last attempt raises; otherwise the loop sleeps
`2 ** attempt` seconds and retries.  Nothing in the loop depends on the HTTP
method — `method` is threaded through untouched, which is exactly what
claim C2 is about. -/

inductive HttpMethod where
  | get | post | put | delete
deriving DecidableEq

inductive Attempt where
  | transportError (msg : Txt)
  | httpResponse (status : Nat) (body : Option JVal)

inductive MkReqErr where
  | httpError (status : Nat) (body : Option JVal)
  | exhausted (attempts : Nat) (lastMsg : Txt)

/-- The retry loop.  Returns the result together with the list of back-off
sleep durations performed (in seconds, `2 ^ attempt`).  The `.ok none`
result is Python's implicit `None` when `max_retries` is `0` and the loop
body never runs. -/
def mkReqGo (step : Nat → Attempt) (maxRetries : Nat) :
    Nat → Nat → Except MkReqErr (Option JVal) × List Nat
  | 0, _ => (.ok none, [])
  | fuel + 1, i =>
    match step i with
    | .httpResponse st body =>
      if 400 ≤ st then (.error (.httpError st body), [])
      else (.ok (some (body.getD (.jobj []))), [])
    | .transportError m =>
      if i = maxRetries - 1 then (.error (.exhausted maxRetries m), [])
      else
        let rest := mkReqGo step maxRetries fuel (i + 1)
        (rest.1, 2 ^ i :: rest.2)

/-- Model of `NiFiAPIClient._make_request`, parameterised by the HTTP method and the
per-attempt transport outcomes. -/
def makeRequest (maxRetries : Nat) (method : HttpMethod) (step : Nat → Attempt) :
    Except MkReqErr (Option JVal) × List Nat :=
  mkReqGo step maxRetries maxRetries 0

/-- HTTP methods of mutating NiFi operations (create/start/stop/delete). -/
def isMutating : HttpMethod → Bool
  | .get => false
  | .post => true
  | .put => true
  | .delete => true

/-! Section: `NiFiMCPServer` (`nifi_mcp_server.py`)

The backend collaborator (`NiFiAPIClient`) is modelled as an oracle: one
field per client method used by the dispatcher, each returning either a
result or a raised error.  Handler executions additionally record the list
of backend calls they make, so "the backend is never invoked" is the
recorded list being empty. -/

/-- A NiFi process group / processor / connection / template as returned by
the backend (only identity fields matter to the dispatcher's envelopes). -/
structure NiFiComponent where
  id : Txt
  name : Txt

/-- Errors raised by backend calls: `NiFiAPIError` (caught first by the
dispatcher and re-signalled with prefix `"NiFi API error: "`) or any other
exception (re-signalled with prefix `"Operation failed: "`). -/
inductive BErr where
  | nifi (msg : Txt)
  | other (msg : Txt)

/-- One backend invocation, recorded for call counting. -/
inductive BCall where
  | getProcessGroups (parent : Option Txt)
  | createProcessGroup (parent : Option Txt) (name : Txt) (position : Option (List (Txt × ℚ)))
  | startProcessGroup (pgid : Option Txt)
  | stopProcessGroup (pgid : Option Txt)
  | getProcessors (pgid : Option Txt)
  | createProcessor (pgid : Option Txt) (ptype : Txt) (name : Txt)
      (position : Option (List (Txt × ℚ))) (properties : Option (List (Txt × JVal)))
  | getConnections (pgid : Option Txt)
  | createConnection (pgid : Option Txt) (src : Txt) (dst : Txt)
      (relationships : List Txt) (name : Option Txt)
  | getTemplates
  | createTemplate (pgid : Option Txt) (name : Txt) (description : JVal)
  | searchComponents (q : Txt)
  | getSystemDiagnostics
  | getControllerStatus
  | getProcessorDocumentation (ptype : Txt)
  | getProcessorTypes

/-- The backend oracle: the response each client method would produce. -/
structure Backend where
  getProcessGroups : Option Txt → Except BErr (List NiFiComponent)
  createProcessGroup : Option Txt → Txt → Option (List (Txt × ℚ)) →
    Except BErr NiFiComponent
  startProcessGroup : Option Txt → Except BErr Unit
  stopProcessGroup : Option Txt → Except BErr Unit
  getProcessors : Option Txt → Except BErr (List NiFiComponent)
  createProcessor : Option Txt → Txt → Txt → Option (List (Txt × ℚ)) →
    Option (List (Txt × JVal)) → Except BErr NiFiComponent
  getConnections : Option Txt → Except BErr (List NiFiComponent)
  createConnection : Option Txt → Txt → Txt → List Txt → Option Txt →
    Except BErr NiFiComponent
  getTemplates : Unit → Except BErr (List NiFiComponent)
  createTemplate : Option Txt → Txt → JVal → Except BErr NiFiComponent
  searchComponents : Txt → Except BErr (List (Txt × List JVal))
  getSystemDiagnostics : Unit → Except BErr JVal
  getControllerStatus : Unit → Except BErr JVal
  getProcessorDocumentation : Txt → Except BErr JVal
  getProcessorTypes : Unit → Except BErr (List Txt)

/-- The `data` payloads built by the dispatcher's handlers. -/
inductive OpData where
  | processGroups (pgs : List NiFiComponent) (count : Nat)
  | processGroup (pg : NiFiComponent)
  | processGroupId (pgid : Option Txt)
  | processors (ps : List NiFiComponent) (count : Nat)
  | processor (p : NiFiComponent)
  | connections (cs : List NiFiComponent) (count : Nat)
  | connection (c : NiFiComponent)
  | templates (ts : List NiFiComponent) (count : Nat)
  | template (t : NiFiComponent)
  | paramsEcho (params : IntentParameters)
  | notImplemented (intentValue : Txt) (params : IntentParameters)
  | searchResults (results : List (Txt × List JVal)) (total : Nat)
  | statusData (diagnostics : JVal) (controller : JVal)
  | flowStatus (status : JVal)
  | documentation (docs : JVal)
  | processorInfo (docs : JVal)
  | processorTypes (ts : List Txt)
  | helpData

/-- The `{message, data}` dictionary a handler returns. -/
structure OpResult where
  message : Txt
  data : Option OpData

/-- Exceptions escaping a handler before the dispatcher's wrapping:
a `ValueError` from parameter validation or a backend error. -/
inductive HandlerErr where
  | validation (msg : Txt)
  | backend (e : BErr)

/-- Decimal rendering of a count for the `"Found N ..."` messages. -/
def natTxt (n : Nat) : Txt := codes (Nat.repr n)

/-- Python truthiness of an optional string: `None` and `""` are falsy. -/
def txtTruthy : Option Txt → Bool
  | none => false
  | some [] => false
  | some (_ :: _) => true

/-- Model of `x.split('.')[-1]`: the part after the last dot. -/
def lastDotComponent (s : Txt) : Txt :=
  ((s.reverse.takeWhile (fun c => c ≠ 46)).reverse)

/-- A handler's outcome paired with the backend calls it made. -/
abbrev HRes := Except HandlerErr OpResult × List BCall

/-- Model of `NiFiMCPServer._list_process_groups`. -/
def listProcessGroupsH (be : Backend) (params : IntentParameters) : HRes :=
  let call := BCall.getProcessGroups params.process_group_id
  match be.getProcessGroups params.process_group_id with
  | .error e => (.error (.backend e), [call])
  | .ok pgs =>
    let msg :=
      if pgs.isEmpty then
        codes "No process groups found in '" ++ params.process_group_id.getD [] ++ codes "'"
      else codes "Found " ++ natTxt pgs.length ++ codes " process group(s)"
    (.ok { message := msg, data := some (.processGroups pgs pgs.length) }, [call])

/-- Model of `NiFiMCPServer._create_process_group`: validates that the group name is
non-empty before any backend call. -/
def createProcessGroupH (be : Backend) (params : IntentParameters) : HRes :=
  if ¬ txtTruthy params.process_group_name then
    (.error (.validation (codes "Process group name is required")), [])
  else
    let name := params.process_group_name.getD []
    let call := BCall.createProcessGroup params.process_group_id name params.position
    match be.createProcessGroup params.process_group_id name params.position with
    | .error e => (.error (.backend e), [call])
    | .ok pg =>
      (.ok { message := codes "Created process group '" ++ name ++ codes "'",
             data := some (.processGroup pg) }, [call])

/-- Model of `NiFiMCPServer._delete_process_group` (a stub: no backend call). -/
def deleteProcessGroupH (params : IntentParameters) : HRes :=
  (.ok { message := codes "Delete process group operation not fully implemented",
         data := some (.paramsEcho params) }, [])

/-- Model of `NiFiMCPServer._start_process_group`. -/
def startProcessGroupH (be : Backend) (params : IntentParameters) : HRes :=
  let call := BCall.startProcessGroup params.process_group_id
  match be.startProcessGroup params.process_group_id with
  | .error e => (.error (.backend e), [call])
  | .ok _ =>
    (.ok { message := codes "Started process group '" ++
             params.process_group_id.getD [] ++ codes "'",
           data := some (.processGroupId params.process_group_id) }, [call])

/-- Model of `NiFiMCPServer._stop_process_group`. -/
def stopProcessGroupH (be : Backend) (params : IntentParameters) : HRes :=
  let call := BCall.stopProcessGroup params.process_group_id
  match be.stopProcessGroup params.process_group_id with
  | .error e => (.error (.backend e), [call])
  | .ok _ =>
    (.ok { message := codes "Stopped process group '" ++
             params.process_group_id.getD [] ++ codes "'",
           data := some (.processGroupId params.process_group_id) }, [call])

/-- Model of `NiFiMCPServer._list_processors`. -/
def listProcessorsH (be : Backend) (params : IntentParameters) : HRes :=
  let call := BCall.getProcessors params.process_group_id
  match be.getProcessors params.process_group_id with
  | .error e => (.error (.backend e), [call])
  | .ok ps =>
    let msg :=
      if ps.isEmpty then
        codes "No processors found in '" ++ params.process_group_id.getD [] ++ codes "'"
      else codes "Found " ++ natTxt ps.length ++ codes " processor(s)"
    (.ok { message := msg, data := some (.processors ps ps.length) }, [call])

/-- Model of `NiFiMCPServer._create_processor`: validates the processor type, then
defaults the name to `"New <last type component>"`. -/
def createProcessorH (be : Backend) (params : IntentParameters) : HRes :=
  if ¬ txtTruthy params.processor_type then
    (.error (.validation (codes "Processor type is required")), [])
  else
    let ptype := params.processor_type.getD []
    let name :=
      if txtTruthy params.processor_name then params.processor_name.getD []
      else codes "New " ++ lastDotComponent ptype
    let call := BCall.createProcessor params.process_group_id ptype name
      params.position params.properties
    match be.createProcessor params.process_group_id ptype name
        params.position params.properties with
    | .error e => (.error (.backend e), [call])
    | .ok p =>
      (.ok { message := codes "Created processor '" ++ name ++ codes "' of type '" ++
               ptype ++ codes "'",
             data := some (.processor p) }, [call])

/-- Model of `NiFiMCPServer._start_processor` (a stub: no backend call). -/
def startProcessorH (params : IntentParameters) : HRes :=
  (.ok { message := codes "Start processor operation not fully implemented",
         data := some (.paramsEcho params) }, [])

/-- Model of `NiFiMCPServer._stop_processor` (a stub: no backend call). -/
def stopProcessorH (params : IntentParameters) : HRes :=
  (.ok { message := codes "Stop processor operation not fully implemented",
         data := some (.paramsEcho params) }, [])

/-- Model of `NiFiMCPServer._list_connections`. -/
def listConnectionsH (be : Backend) (params : IntentParameters) : HRes :=
  let call := BCall.getConnections params.process_group_id
  match be.getConnections params.process_group_id with
  | .error e => (.error (.backend e), [call])
  | .ok cs =>
    let msg :=
      if cs.isEmpty then
        codes "No connections found in '" ++ params.process_group_id.getD [] ++ codes "'"
      else codes "Found " ++ natTxt cs.length ++ codes " connection(s)"
    (.ok { message := msg, data := some (.connections cs cs.length) }, [call])

/-- Model of `NiFiMCPServer._create_connection`. -/
def createConnectionH (be : Backend) (params : IntentParameters) : HRes :=
  if ¬ (txtTruthy params.source_id ∧ txtTruthy params.destination_id) then
    (.error (.validation (codes "Source and destination IDs are required")), [])
  else
    let src := params.source_id.getD []
    let dst := params.destination_id.getD []
    let rels :=
      match params.relationships with
      | none => [codes "success"]
      | some [] => [codes "success"]
      | some l => l
    let call := BCall.createConnection params.process_group_id src dst rels
      params.connection_name
    match be.createConnection params.process_group_id src dst rels
        params.connection_name with
    | .error e => (.error (.backend e), [call])
    | .ok c =>
      (.ok { message := codes "Created connection from '" ++ src ++ codes "' to '" ++
               dst ++ codes "'",
             data := some (.connection c) }, [call])

/-- Model of `NiFiMCPServer._list_templates`. -/
def listTemplatesH (be : Backend) (_params : IntentParameters) : HRes :=
  match be.getTemplates () with
  | .error e => (.error (.backend e), [.getTemplates])
  | .ok ts =>
    let msg :=
      if ts.isEmpty then codes "No templates found"
      else codes "Found " ++ natTxt ts.length ++ codes " template(s)"
    (.ok { message := msg, data := some (.templates ts ts.length) }, [.getTemplates])

/-- Model of `NiFiMCPServer._create_template`.  `params.additional_params.get(...)` on
a `None` map raises `AttributeError`, re-signalled by the generic wrapper. -/
def createTemplateH (be : Backend) (params : IntentParameters) : HRes :=
  if ¬ txtTruthy params.template_name then
    (.error (.validation (codes "Template name is required")), [])
  else
    let name := params.template_name.getD []
    match params.additional_params with
    | none => (.error (.backend (.other (codes "'NoneType' object has no attribute 'get'"))), [])
    | some addl =>
      let desc := ((addl.find? (fun f => f.1 = codes "description")).map
        (fun f => f.2)).getD (.jstr [])
      let call := BCall.createTemplate params.process_group_id name desc
      match be.createTemplate params.process_group_id name desc with
      | .error e => (.error (.backend e), [call])
      | .ok t =>
        (.ok { message := codes "Created template '" ++ name ++ codes "'",
               data := some (.template t) }, [call])

/-- Model of `NiFiMCPServer._instantiate_template` (a stub: no backend call). -/
def instantiateTemplateH (params : IntentParameters) : HRes :=
  (.ok { message := codes "Instantiate template operation not fully implemented",
         data := some (.paramsEcho params) }, [])

/-- Model of `NiFiMCPServer._search_components`. -/
def searchComponentsH (be : Backend) (params : IntentParameters) : HRes :=
  if ¬ txtTruthy params.search_query then
    (.error (.validation (codes "Search query is required")), [])
  else
    let q := params.search_query.getD []
    let call := BCall.searchComponents q
    match be.searchComponents q with
    | .error e => (.error (.backend e), [call])
    | .ok results =>
      let total := (results.map (fun r => r.2.length)).sum
      (.ok { message := codes "Found " ++ natTxt total ++ codes " component(s) matching '" ++
               q ++ codes "'",
             data := some (.searchResults results total) }, [call])

/-- Model of `NiFiMCPServer._get_status`: two sequential backend calls. -/
def getStatusH (be : Backend) (_params : IntentParameters) : HRes :=
  match be.getSystemDiagnostics () with
  | .error e => (.error (.backend e), [.getSystemDiagnostics])
  | .ok diag =>
    match be.getControllerStatus () with
    | .error e => (.error (.backend e), [.getSystemDiagnostics, .getControllerStatus])
    | .ok ctrl =>
      (.ok { message := codes "Retrieved NiFi system status",
             data := some (.statusData diag ctrl) },
       [.getSystemDiagnostics, .getControllerStatus])

/-- Model of `NiFiMCPServer._get_flow_status`. -/
def getFlowStatusH (be : Backend) (_params : IntentParameters) : HRes :=
  match be.getControllerStatus () with
  | .error e => (.error (.backend e), [.getControllerStatus])
  | .ok st =>
    (.ok { message := codes "Retrieved flow status", data := some (.flowStatus st) },
     [.getControllerStatus])

/-- Model of `NiFiMCPServer._get_help`: static reference data, no backend call. -/
def getHelpH (_params : IntentParameters) : HRes :=
  (.ok { message := codes "Here are some example queries you can use:",
         data := some .helpData }, [])

/-- Model of `NiFiMCPServer._get_documentation`. -/
def getDocumentationH (be : Backend) (params : IntentParameters) : HRes :=
  if txtTruthy params.processor_type then
    let pt := params.processor_type.getD []
    match be.getProcessorDocumentation pt with
    | .error e => (.error (.backend e), [.getProcessorDocumentation pt])
    | .ok docs =>
      (.ok { message := codes "Retrieved documentation for " ++ pt,
             data := some (.documentation docs) }, [.getProcessorDocumentation pt])
  else getHelpH params

/-- Model of `NiFiMCPServer._get_processor_info`. -/
def getProcessorInfoH (be : Backend) (params : IntentParameters) : HRes :=
  if txtTruthy params.processor_type then
    let pt := params.processor_type.getD []
    match be.getProcessorDocumentation pt with
    | .error e => (.error (.backend e), [.getProcessorDocumentation pt])
    | .ok docs =>
      (.ok { message := codes "Retrieved information for " ++ pt,
             data := some (.processorInfo docs) }, [.getProcessorDocumentation pt])
  else
    match be.getProcessorTypes () with
    | .error e => (.error (.backend e), [.getProcessorTypes])
    | .ok ts =>
      (.ok { message := codes "Found " ++ natTxt ts.length ++ codes " processor types",
             data := some (.processorTypes ts) }, [.getProcessorTypes])

/-- The intents with no branch of their own in `_execute_nifi_operation`'s
conditional chain; they fall to the `else` placeholder. -/
def unwired (i : NiFiIntent) : Bool :=
  i = .delete_processor ∨ i = .configure_processor ∨ i = .delete_connection ∨
    i = .monitor_flow ∨ i = .unknown

/-- The `else` placeholder envelope for unwired intents. -/
def notImplementedH (intent : NiFiIntent) (params : IntentParameters) : HRes :=
  (.ok { message := codes "Intent '" ++ intent.value ++ codes "' is not yet implemented",
         data := some (.notImplemented intent.value params) }, [])

/-- The dispatcher's branch of `_execute_nifi_operation` (the `try` body). -/
def dispatchIntent (be : Backend) (intent : NiFiIntent) (params : IntentParameters) : HRes :=
  match intent with
  | .list_process_groups => listProcessGroupsH be params
  | .create_process_group => createProcessGroupH be params
  | .delete_process_group => deleteProcessGroupH params
  | .start_process_group => startProcessGroupH be params
  | .stop_process_group => stopProcessGroupH be params
  | .list_processors => listProcessorsH be params
  | .create_processor => createProcessorH be params
  | .start_processor => startProcessorH params
  | .stop_processor => stopProcessorH params
  | .list_connections => listConnectionsH be params
  | .create_connection => createConnectionH be params
  | .list_templates => listTemplatesH be params
  | .create_template => createTemplateH be params
  | .instantiate_template => instantiateTemplateH params
  | .search_components => searchComponentsH be params
  | .get_status => getStatusH be params
  | .get_flow_status => getFlowStatusH be params
  | .get_documentation => getDocumentationH be params
  | .get_processor_info => getProcessorInfoH be params
  | .help => getHelpH params
  | i => notImplementedH i params

/-- Model of `NiFiMCPServer._execute_nifi_operation`: the not-initialized guard is
raised *before* the `try`, so it is not wrapped; `NiFiAPIError` is re-raised
as `RuntimeError("NiFi API error: ...")`, any other exception (including the
handlers' `ValueError`s) as `RuntimeError("Operation failed: ...")`.  The
error type is the `RuntimeError` message text. -/
def executeNifiOperation (clientInit : Bool) (be : Backend) (intent : ProcessedIntent) :
    Except Txt OpResult × List BCall :=
  if ¬ clientInit then (.error (codes "NiFi client not initialized"), [])
  else
    match dispatchIntent be intent.intent intent.parameters with
    | (.ok r, calls) => (.ok r, calls)
    | (.error (.validation m), calls) =>
      (.error (codes "Operation failed: " ++ m), calls)
    | (.error (.backend (.nifi m)), calls) =>
      (.error (codes "NiFi API error: " ++ m), calls)
    | (.error (.backend (.other m)), calls) =>
      (.error (codes "Operation failed: " ++ m), calls)

/-! Section: Session store and `NiFiMCPServer.process_query` -/

/-- One entry of a session's bounded query log. -/
structure SessionRec where
  timestamp : Nat
  query : Txt
  intentValue : Txt
  confidence : ℚ
  result : OpResult

/-- A session: creation time and the bounded query log (the `context` map of
the source is never written and is omitted). -/
structure Session where
  created_at : Nat
  queries : List SessionRec

/-- The server's session dictionary, as an association list keyed by session
id (insertion order, like a Python dict). -/
abbrev Sessions := List (Txt × Session)

def lookupSession (ss : Sessions) (sid : Txt) : Option Session :=
  (ss.find? (fun e => e.1 = sid)).map (fun e => e.2)

/-- Replace the value at an existing key. -/
def setSession (ss : Sessions) (sid : Txt) (s : Session) : Sessions :=
  ss.map (fun e => if e.1 = sid then (sid, s) else e)

/-- The last `n` elements of a list, in order (Python `l[-n:]`). -/
def lastN (n : Nat) (l : List SessionRec) : List SessionRec := l.drop (l.length - n)

/-- Model of `NiFiMCPServer._update_session`: create the entry on first use, append
the interaction record, keep only the last 10 entries. -/
def updateSession (ss : Sessions) (sid : Txt) (now : Nat) (pi : ProcessedIntent)
    (result : OpResult) : Sessions :=
  let base :=
    match lookupSession ss sid with
    | some _ => ss
    | none => ss ++ [(sid, { created_at := now, queries := [] })]
  let cur := (lookupSession base sid).getD { created_at := now, queries := [] }
  let rec0 : SessionRec :=
    { timestamp := now, query := pi.raw_query, intentValue := pi.intent.value,
      confidence := pi.confidence, result := result }
  let appended := cur.queries ++ [rec0]
  let truncated := if appended.length > 10 then lastN 10 appended else appended
  setSession base sid { cur with queries := truncated }

/-- The server state visible to `process_query`. -/
structure ServerState where
  clientInit : Bool
  sessions : Sessions

/-- The MCP request (`query`, optional `session_id`; the context map is
passed through untouched and omitted). -/
structure MCPRequest where
  query : Txt
  session_id : Option Txt := none

/-- The MCP response envelope. -/
structure MCPResponse where
  success : Bool
  message : Txt
  data : Option OpData := none
  intent : Option Txt := none
  confidence : Option ℚ := none
  timestamp : Nat
  session_id : Option Txt := none

/-- Model of `NiFiMCPServer.process_query`, parameterised by the intent-resolution
function (`self.intent_processor.process_query`, which never raises on the
pattern path), the backend oracle and the current time.  Returns the new
state, the response and the backend calls made.  A raised dispatch error is
caught and converted to a `success=false` envelope *before* the session
update would run, so the session store is untouched on that path. -/
def serverProcessQuery (resolve : Txt → ProcessedIntent) (be : Backend) (now : Nat)
    (st : ServerState) (req : MCPRequest) : ServerState × MCPResponse × List BCall :=
  let pi := resolve req.query
  match executeNifiOperation st.clientInit be pi with
  | (.error e, calls) =>
    (st,
     { success := false, message := codes "Error processing query: " ++ e,
       timestamp := now, session_id := req.session_id },
     calls)
  | (.ok result, calls) =>
    let resp : MCPResponse :=
      { success := true, message := result.message, data := result.data,
        intent := some pi.intent.value, confidence := some pi.confidence,
        timestamp := now, session_id := req.session_id }
    let st' :=
      match req.session_id with
      | some sid => { st with sessions := updateSession st.sessions sid now pi result }
      | none => st
    (st', resp, calls)

/-! Section: Concrete instances used to exercise the theorems -/

/-- A backend oracle answering every call successfully with empty data. -/
def beStub : Backend where
  getProcessGroups := fun _ => .ok []
  createProcessGroup := fun _ n _ => .ok { id := codes "pg-1", name := n }
  startProcessGroup := fun _ => .ok ()
  stopProcessGroup := fun _ => .ok ()
  getProcessors := fun _ => .ok []
  createProcessor := fun _ _ n _ _ => .ok { id := codes "p-1", name := n }
  getConnections := fun _ => .ok []
  createConnection := fun _ _ _ _ _ => .ok { id := codes "c-1", name := [] }
  getTemplates := fun _ => .ok []
  createTemplate := fun _ n _ => .ok { id := codes "t-1", name := n }
  searchComponents := fun _ => .ok []
  getSystemDiagnostics := fun _ => .ok .null
  getControllerStatus := fun _ => .ok .null
  getProcessorDocumentation := fun _ => .ok .null
  getProcessorTypes := fun _ => .ok []

/-- Attempt outcomes with one transport failure followed by 200 responses. -/
def oneFailThenOk : Nat → Attempt := fun i =>
  if i = 0 then .transportError [] else .httpResponse 200 (some (.jobj []))

/-- The session record `_update_session` builds from one interaction. -/
def recOf (item : Nat × ProcessedIntent × OpResult) : SessionRec :=
  { timestamp := item.1, query := item.2.1.raw_query,
    intentValue := item.2.1.intent.value, confidence := item.2.1.confidence,
    result := item.2.2 }

/-- Appending a sequence of interactions to one session. -/
def appendAll (ss : Sessions) (sid : Txt)
    (items : List (Nat × ProcessedIntent × OpResult)) : Sessions :=
  items.foldl (fun s it => updateSession s sid it.1 it.2.1 it.2.2) ss

/-- The query log of a session (empty when the session does not exist). -/
def sessionQueries (ss : Sessions) (sid : Txt) : List SessionRec :=
  ((lookupSession ss sid).map (fun s => s.queries)).getD []

/-- Fifteen concrete interactions, for the size-15 instance of claim C7. -/
def fifteenItems : List (Nat × ProcessedIntent × OpResult) :=
  (List.range 15).map (fun n =>
    (n,
     { intent := NiFiIntent.help, parameters := {}, confidence := 0,
       raw_query := natTxt n, explanation := none },
     { message := codes "ok", data := none }))

/-! Section: the claim theorems -/

/-- Claim C1: whenever the classifier tier is unconfigured, raises, or
returns a result with confidence ≤ 0.7, `process_query` returns exactly the
result of the pattern tier (`_process_with_patterns`) on the query text —
the discarded classifier result is never blended in. -/
theorem claim_C1 (outcome : ClassifierOutcome) (query : Txt)
    (h : outcome = .noProvider ∨ outcome = .raised ∨
      ∃ r, outcome = .returned r ∧ r.confidence ≤ mkRat 7 10) :
    resolveQuery outcome query = processWithPatterns query := by
  rcases h with h | h | ⟨r, h, hc⟩ <;> subst h
  · rfl
  · rfl
  · simp only [resolveQuery, if_neg (not_lt.mpr hc)]

/-- Witness for C1 at a concrete classifier result of confidence 0.5. -/
theorem claim_C1_witness :
    resolveQuery
      (.returned { intent := .help, parameters := {}, confidence := mkRat 1 2,
                   raw_query := codes "help" })
      (codes "help")
      = processWithPatterns (codes "help") :=
  claim_C1 _ _ (Or.inr (Or.inr ⟨_, rfl, by decide⟩))

/-! Auxiliary lemmas about the scoring folds (for claim C5). -/

theorem patScore_nonneg (p : Rx) (q : Txt) : 0 ≤ patScore p q := by
  unfold patScore
  rw [Rat.mkRat_eq_div]
  positivity

theorem count_eq_zero_of_not_rsearch {p : Rx} {q : Txt} (h : rsearch p q = false) :
    countMatches p q = 0 := by
  have hn : searchStep p q = none := by
    unfold rsearch at h
    exact Option.not_isSome_iff_eq_none.mp (by simp [h])
  simp [countMatches, findall, findallAux, hn]

theorem patScore_eq_zero_of_not_rsearch {p : Rx} {q : Txt} (h : rsearch p q = false) :
    patScore p q = 0 := by
  simp [patScore, count_eq_zero_of_not_rsearch h]

theorem patScore_le_of_count_le {p : Rx} {q : Txt} (h : countMatches p q ≤ 2) :
    patScore p q ≤ mkRat 6 10 := by
  unfold patScore
  have h2 : countMatches p q = 0 ∨ countMatches p q = 1 ∨ countMatches p q = 2 := by omega
  rcases h2 with h2 | h2 | h2 <;> rw [h2] <;> decide

theorem foldl_max_shift (f : Rx → ℚ) (l : List Rx) :
    ∀ a b : ℚ, l.foldl (fun m p => max m (f p)) (max a b)
      = max a (l.foldl (fun m p => max m (f p)) b) := by
  induction l with
  | nil => intro a b; rfl
  | cons p t ih =>
    intro a b
    simp only [List.foldl_cons]
    rw [max_assoc]
    exact ih a (max b (f p))

theorem specIntentScore_cons (p : Rx) (ps : List Rx) (q : Txt) :
    specIntentScore (p :: ps) q = max (patScore p q) (specIntentScore ps q) := by
  unfold specIntentScore
  simp only [List.foldl_cons]
  rw [show (max 0 (patScore p q)) = max (patScore p q) 0 from max_comm _ _]
  exact foldl_max_shift _ _ _ _

theorem specIntentScore_nonneg (ps : List Rx) (q : Txt) : 0 ≤ specIntentScore ps q := by
  induction ps with
  | nil => simp [specIntentScore]
  | cons p t ih => rw [specIntentScore_cons]; exact le_max_of_le_right ih

theorem specIntentScore_le (ps : List Rx) (q : Txt)
    (h : ∀ p ∈ ps, countMatches p q ≤ 2) :
    specIntentScore ps q ≤ mkRat 6 10 := by
  induction ps with
  | nil =>
    show (0 : ℚ) ≤ mkRat 6 10
    decide
  | cons p t ih =>
    rw [specIntentScore_cons]
    exact max_le (patScore_le_of_count_le (h p (List.mem_cons_self p t)))
      (ih (fun x hx => h x (List.mem_cons_of_mem p hx)))

theorem patStep_of_not_rsearch {p : Rx} {q : Txt} (i : NiFiIntent)
    (acc : Option NiFiIntent × ℚ) (h : rsearch p q = false) :
    patStep i q acc p = acc := by
  simp [patStep, h]

/-- The inner loop over one intent's patterns equals a single spec-side
update, provided every pattern's match count is at most 2 (raw score ≤ 0.6,
so the 0.8 cap never bites). -/
theorem innerFold_eq (i : NiFiIntent) (q : Txt) (ps : List Rx)
    (hcount : ∀ p ∈ ps, countMatches p q ≤ 2) :
    ∀ (b : Option NiFiIntent) (c : ℚ), 0 ≤ c →
      ps.foldl (patStep i q) (b, c)
        = if c < specIntentScore ps q then (some i, specIntentScore ps q) else (b, c) := by
  induction ps with
  | nil =>
    intro b c hc
    simp only [List.foldl_nil, specIntentScore, List.foldl_nil]
    rw [if_neg (not_lt.mpr hc)]
  | cons p t ih =>
    intro b c hc
    have hcp := hcount p (List.mem_cons_self p t)
    have hct : ∀ x ∈ t, countMatches x q ≤ 2 :=
      fun x hx => hcount x (List.mem_cons_of_mem p hx)
    have hs0 : 0 ≤ patScore p q := patScore_nonneg p q
    have hs6 : patScore p q ≤ mkRat 6 10 := patScore_le_of_count_le hcp
    have hmin : min (patScore p q) (mkRat 8 10) = patScore p q :=
      min_eq_left (hs6.trans (by decide))
    rw [specIntentScore_cons]
    simp only [List.foldl_cons]
    by_cases hr : rsearch p q
    · simp only [patStep, hr, if_true, gt_iff_lt]
      by_cases hcs : c < patScore p q
      · rw [if_pos hcs, hmin]
        rw [ih hct (some i) (patScore p q) hs0]
        by_cases hst : patScore p q < specIntentScore t q
        · rw [if_pos hst, if_pos (lt_max_of_lt_right (hcs.trans hst)),
            max_eq_right (le_of_lt hst)]
        · rw [if_neg hst, if_pos (lt_max_of_lt_left hcs),
            max_eq_left (not_lt.mp hst)]
      · rw [if_neg hcs]
        rw [ih hct b c hc]
        by_cases hst : c < specIntentScore t q
        · rw [if_pos hst, if_pos (lt_max_of_lt_right hst),
            max_eq_right (((not_lt.mp hcs).trans (le_of_lt hst)))]
        · rw [if_neg hst,
            if_neg (by rw [lt_max_iff]; push_neg; exact ⟨not_lt.mp hcs, not_lt.mp hst⟩)]
    · have hr' : rsearch p q = false := by
        simpa using hr
      have hps : patScore p q = 0 := patScore_eq_zero_of_not_rsearch hr'
      rw [patStep_of_not_rsearch i (b, c) hr']
      rw [ih hct b c hc, hps,
        max_eq_right (specIntentScore_nonneg t q)]

/-- The dispatcher's double loop equals the spec-side fold over per-intent
maxima, under the same match-count bound. -/
theorem outerFold_eq (q : Txt) :
    ∀ (catalog : List (NiFiIntent × List Rx)) (b : Option NiFiIntent) (c : ℚ),
      0 ≤ c →
      (∀ ip ∈ catalog, ∀ p ∈ ip.2, countMatches p q ≤ 2) →
      catalog.foldl (fun acc ip => ip.2.foldl (patStep ip.1 q) acc) (b, c)
        = catalog.foldl (specStep q) (b, c) := by
  intro catalog
  induction catalog with
  | nil => intro b c _ _; rfl
  | cons ip rest ih =>
    intro b c hc hcount
    have hip := hcount ip (List.mem_cons_self ip rest)
    have hrest : ∀ x ∈ rest, ∀ p ∈ x.2, countMatches p q ≤ 2 :=
      fun x hx => hcount x (List.mem_cons_of_mem ip hx)
    simp only [List.foldl_cons]
    rw [innerFold_eq ip.1 q ip.2 hip b c hc]
    show _ = rest.foldl (specStep q) (specStep q (b, c) ip)
    unfold specStep
    simp only [gt_iff_lt]
    by_cases hlt : c < specIntentScore ip.2 q
    · rw [if_pos hlt]
      exact ih _ _ (specIntentScore_nonneg _ _) hrest
    · rw [if_neg hlt]
      exact ih _ _ hc hrest

theorem specBestFold_le (q : Txt) :
    ∀ (catalog : List (NiFiIntent × List Rx)) (b : Option NiFiIntent) (c : ℚ),
      c ≤ mkRat 6 10 →
      (∀ ip ∈ catalog, ∀ p ∈ ip.2, countMatches p q ≤ 2) →
      (catalog.foldl (specStep q) (b, c)).2 ≤ mkRat 6 10 := by
  intro catalog
  induction catalog with
  | nil => intro b c hc _; exact hc
  | cons ip rest ih =>
    intro b c hc hcount
    simp only [List.foldl_cons]
    unfold specStep
    simp only [gt_iff_lt]
    by_cases hlt : c < specIntentScore ip.2 q
    · rw [if_pos hlt]
      exact ih _ _ (specIntentScore_le _ _ (hcount ip (List.mem_cons_self ip rest)))
        (fun x hx => hcount x (List.mem_cons_of_mem ip hx))
    · rw [if_neg hlt]
      exact ih _ _ hc (fun x hx => hcount x (List.mem_cons_of_mem ip hx))

/-- Claim C5 (amended): whenever no pattern matches more than twice in the
query (every raw score ≤ 0.6 — in particular below the 0.8 cap), the code's
running best agrees exactly with the claim's described algorithm: per-intent
maximum of `count × 0.3`, strict greater-than tracking with ties keeping the
earliest catalog intent, final confidence `min(best, 0.8)`.  (Without that
bound the code compares raw scores against the *capped* stored best, so a
later intent whose raw score ties an earlier one above 0.8 steals the best —
see the counterexample.) -/
theorem claim_C5_amended (q : Txt)
    (hcount : ∀ ip ∈ intentPatterns, ∀ p ∈ ip.2,
      countMatches p (pyStrip (pyLower q)) ≤ 2) :
    (processWithPatterns q).intent
      = (specBestFold intentPatterns (pyStrip (pyLower q))).1.getD .unknown ∧
    (processWithPatterns q).confidence
      = min (specBestFold intentPatterns (pyStrip (pyLower q))).2 (mkRat 8 10) := by
  have hfold : bestFold intentPatterns (pyStrip (pyLower q))
      = specBestFold intentPatterns (pyStrip (pyLower q)) :=
    outerFold_eq (pyStrip (pyLower q)) intentPatterns none 0 le_rfl hcount
  have hle : (specBestFold intentPatterns (pyStrip (pyLower q))).2 ≤ mkRat 6 10 :=
    specBestFold_le _ _ none 0 (by decide) hcount
  constructor
  · show (bestFold intentPatterns (pyStrip (pyLower q))).1.getD .unknown
      = (specBestFold intentPatterns (pyStrip (pyLower q))).1.getD .unknown
    rw [hfold]
  · show (bestFold intentPatterns (pyStrip (pyLower q))).2
      = min (specBestFold intentPatterns (pyStrip (pyLower q))).2 (mkRat 8 10)
    rw [hfold, min_eq_left (hle.trans (by decide))]

set_option maxRecDepth 400000 in
/-- Witness for the amended C5 at the query `"list process groups"`, whose
pattern match counts are all ≤ 2. -/
theorem claim_C5_amended_witness :
    (∀ ip ∈ intentPatterns, ∀ p ∈ ip.2,
      countMatches p (pyStrip (pyLower (codes "list process groups"))) ≤ 2) ∧
    (processWithPatterns (codes "list process groups")).intent
      = (specBestFold intentPatterns
          (pyStrip (pyLower (codes "list process groups")))).1.getD .unknown := by
  have h : ∀ ip ∈ intentPatterns, ∀ p ∈ ip.2,
      countMatches p (pyStrip (pyLower (codes "list process groups"))) ≤ 2 := by decide
  exact ⟨h, (claim_C5_amended _ h).1⟩

set_option maxRecDepth 400000 in
/-- Counterexample to claim C5 as stated: on this query the patterns
`status` (intent `get_status`, early in the catalog) and `usage` (intent
`help`, later) both have raw score 3 × 0.3 = 0.9.  The claim's algorithm
keeps the tie's earliest intent, `get_status`; the code stores the best
capped at 0.8, so the later raw 0.9 > 0.8 steals the running best and the
code answers `help`. -/
theorem claim_C5_counterexample :
    (processWithPatterns (codes "status usage status usage status usage")).intent
      = NiFiIntent.help ∧
    (specPatternBest (codes "status usage status usage status usage")).1
      = some NiFiIntent.get_status ∧
    NiFiIntent.help ≠ NiFiIntent.get_status := by
  refine ⟨by decide, by decide, by decide⟩

/-! Lemmas for claim C6: the no-match case of `_process_with_patterns`. -/

theorem innerFold_of_no_match (i : NiFiIntent) (q : Txt) (ps : List Rx)
    (h : ∀ p ∈ ps, rsearch p q = false) :
    ∀ acc, ps.foldl (patStep i q) acc = acc := by
  induction ps with
  | nil => intro acc; rfl
  | cons p t ih =>
    intro acc
    simp only [List.foldl_cons, patStep_of_not_rsearch i acc (h p (List.mem_cons_self p t))]
    exact ih (fun x hx => h x (List.mem_cons_of_mem p hx)) acc

theorem bestFold_of_no_match (q : Txt) (catalog : List (NiFiIntent × List Rx))
    (h : ∀ ip ∈ catalog, ∀ p ∈ ip.2, rsearch p q = false) :
    ∀ acc, catalog.foldl (fun acc ip => ip.2.foldl (patStep ip.1 q) acc) acc = acc := by
  induction catalog with
  | nil => intro acc; rfl
  | cons ip rest ih =>
    intro acc
    simp only [List.foldl_cons,
      innerFold_of_no_match ip.1 q ip.2 (h ip (List.mem_cons_self ip rest)) acc]
    exact ih (fun x hx => h x (List.mem_cons_of_mem ip hx)) acc

/-- Claim C6 (amended): when no pattern of any catalog intent matches the
lower-cased, trimmed query, the result is intent Unknown with confidence
exactly 0.0 — but the explanation is `"Matched pattern for unknown"` (the
single explanation template of `_process_with_patterns`), not the claimed
`"no pattern match"`. -/
theorem claim_C6_amended (q : Txt)
    (h : ∀ ip ∈ intentPatterns, ∀ p ∈ ip.2, rsearch p (pyStrip (pyLower q)) = false) :
    processWithPatterns q =
      { intent := .unknown,
        parameters := extractParameters (pyStrip (pyLower q)) .unknown,
        confidence := 0,
        raw_query := q,
        explanation := some (codes "Matched pattern for unknown") } := by
  have hfold : bestFold intentPatterns (pyStrip (pyLower q)) = (none, 0) :=
    bestFold_of_no_match _ _ h (none, 0)
  show ({ intent := (bestFold intentPatterns (pyStrip (pyLower q))).1.getD .unknown,
          parameters := extractParameters (pyStrip (pyLower q))
            ((bestFold intentPatterns (pyStrip (pyLower q))).1.getD .unknown),
          confidence := (bestFold intentPatterns (pyStrip (pyLower q))).2,
          raw_query := q,
          explanation := some (codes "Matched pattern for " ++
            ((bestFold intentPatterns (pyStrip (pyLower q))).1.getD .unknown).value) }
        : ProcessedIntent) = _
  rw [hfold]
  rfl

set_option maxRecDepth 400000 in
/-- Witness for the amended C6 at the concrete query `"qqq"`. -/
theorem claim_C6_amended_witness :
    processWithPatterns (codes "qqq") =
      { intent := .unknown,
        parameters := extractParameters (pyStrip (pyLower (codes "qqq"))) .unknown,
        confidence := 0,
        raw_query := codes "qqq",
        explanation := some (codes "Matched pattern for unknown") } := by
  have h : ∀ ip ∈ intentPatterns, ∀ p ∈ ip.2,
      rsearch p (pyStrip (pyLower (codes "qqq"))) = false := by decide
  exact claim_C6_amended _ h

set_option maxRecDepth 400000 in
/-- Counterexample to claim C6 as stated: at the no-match query `"qqq"` the
intent and confidence are as claimed, but the explanation string is
`"Matched pattern for unknown"`, not `"no pattern match"`. -/
theorem claim_C6_counterexample :
    (processWithPatterns (codes "qqq")).intent = NiFiIntent.unknown ∧
    (processWithPatterns (codes "qqq")).confidence = 0 ∧
    (processWithPatterns (codes "qqq")).explanation ≠ some (codes "no pattern match") ∧
    (processWithPatterns (codes "qqq")).explanation
      = some (codes "Matched pattern for unknown") := by
  refine ⟨by decide, by decide, by decide, by decide⟩

set_option maxRecDepth 400000 in
/-- Counterexample to claim C9 as stated: the intent resolves to
create-process-group, but the extracted group name is not `"ETL Pipeline"` —
extraction runs on the lower-cased query, and the group-reference heuristic
`(?:process\s+)?group\s+(.+)` then overwrites the quoted name (last writer
wins), leaving `"called 'etl pipeline"`. -/
theorem claim_C9_counterexample :
    (processWithPatterns
      (codes "create a process group called 'ETL Pipeline'")).intent
      = NiFiIntent.create_process_group ∧
    (processWithPatterns
      (codes "create a process group called 'ETL Pipeline'")).parameters.process_group_name
      ≠ some (codes "ETL Pipeline") := by
  refine ⟨by decide, by decide⟩

set_option maxRecDepth 400000 in
/-- Claim C9 (amended): the pattern path resolves
`"create a process group called 'ETL Pipeline'"` to create-process-group;
quoted-name extraction first sets the (lower-cased) name `'etl pipeline'`,
then the group-reference heuristic overwrites it — last writer wins — so the
final group name is `"called 'etl pipeline"`. -/
theorem claim_C9_amended :
    (processWithPatterns
      (codes "create a process group called 'ETL Pipeline'")).intent
      = NiFiIntent.create_process_group ∧
    (processWithPatterns
      (codes "create a process group called 'ETL Pipeline'")).parameters.process_group_name
      = some (codes "called 'etl pipeline") := by
  refine ⟨by decide, by decide⟩

/-- Counterexample to claim C4 as stated: a classifier response whose
top-level JSON value is an array (`"[]"` parses fine) is not a dict, so
`data.get("intent", ...)` raises `AttributeError`, which the
`except (json.JSONDecodeError, ValueError, KeyError)` clause does not catch —
the parse raises past the adapter instead of returning Unknown/0.0. -/
theorem claim_C4_counterexample :
    parseLLMResponse (some (JVal.jarr [])) (codes "list")
      = Except.error ExcKind.attributeError := rfl

/-- Claim C4 (amended): the adapter converts every `json.JSONDecodeError`,
`ValueError` (unknown intent values, malformed numeric strings, pydantic
validation failures) and `KeyError` to intent Unknown with confidence 0.0
and the explanation `"Failed to parse LLM response"` — but it does not catch
`TypeError` or `AttributeError`, so a non-object top-level JSON value or a
non-numeric, non-string confidence (e.g. `null`) raises past the adapter;
any escaping exception is of one of those two kinds. -/
theorem claim_C4_amended (loads : Option JVal) (q : Txt) :
    (∀ e, parseLLMResponse loads q = .error e →
      e = ExcKind.typeError ∨ e = ExcKind.attributeError) ∧
    (loads = none → parseLLMResponse loads q = .ok (parseFallback q)) ∧
    (∀ v e, loads = some v → innerParse v q = .error e → caughtExc e = true →
      parseLLMResponse loads q = .ok (parseFallback q)) := by
  refine ⟨?_, ?_, ?_⟩
  · intro e he
    cases loads with
    | none => simp [parseLLMResponse, caughtExc] at he
    | some v =>
      cases hi : innerParse v q with
      | ok r => simp [parseLLMResponse, hi] at he
      | error e' =>
        cases e' with
        | jsonDecodeError => simp [parseLLMResponse, hi, caughtExc] at he
        | valueError => simp [parseLLMResponse, hi, caughtExc] at he
        | keyError => simp [parseLLMResponse, hi, caughtExc] at he
        | typeError =>
          simp only [parseLLMResponse, hi, caughtExc, Bool.false_eq_true,
            if_false, Except.error.injEq] at he
          left
          exact he.symm
        | attributeError =>
          simp only [parseLLMResponse, hi, caughtExc, Bool.false_eq_true,
            if_false, Except.error.injEq] at he
          right
          exact he.symm
  · intro h
    subst h
    rfl
  · intro v e hv hi hc
    subst hv
    simp [parseLLMResponse, hi, hc]

/-- Witness for the amended C4: the array response escapes with
`AttributeError` (an uncaught kind), and a JSON decode failure yields the
exact Unknown/0.0 fallback. -/
theorem claim_C4_amended_witness :
    (ExcKind.attributeError = ExcKind.typeError ∨
      ExcKind.attributeError = ExcKind.attributeError) ∧
    parseLLMResponse none (codes "q") = .ok (parseFallback (codes "q")) :=
  ⟨(claim_C4_amended (some (JVal.jarr [])) (codes "q")).1 _ rfl,
   (claim_C4_amended none (codes "q")).2.1 rfl⟩

/-- Counterexample to claim C2 as stated: a POST (mutating) request whose
first attempt fails at transport level is retried — after the back-off sleep
`2^0 = 1` — and succeeds on the second attempt.  The retry loop of
`_make_request` never inspects the HTTP method, so mutating operations are
retried exactly like reads, not failed immediately. -/
theorem claim_C2_counterexample :
    makeRequest 3 .post oneFailThenOk = (.ok (some (.jobj [])), [1]) ∧
    isMutating .post = true :=
  ⟨rfl, rfl⟩

/-- The retry loop, started at attempt `i`: `k` straight transport failures
followed by an HTTP response end with that response's outcome and the
back-off sleeps `2^i, ..., 2^(i+k-1)`. -/
theorem mkReqGo_spec (step : Nat → Attempt) (maxRetries st : Nat)
    (b : Option JVal) (ms : Nat → Txt) :
    ∀ (k i fuel : Nat), k < fuel → i + k < maxRetries →
      (∀ j, j < k → step (i + j) = .transportError (ms (i + j))) →
      step (i + k) = .httpResponse st b →
      mkReqGo step maxRetries fuel i =
        ((if 400 ≤ st then .error (.httpError st b)
          else .ok (some (b.getD (.jobj [])))),
         (List.range k).map (fun j => 2 ^ (i + j))) := by
  intro k
  induction k with
  | zero =>
    intro i fuel hf _ _ hresp
    cases fuel with
    | zero => omega
    | succ f =>
      rw [Nat.add_zero] at hresp
      unfold mkReqGo
      rw [hresp]
      show (if 400 ≤ st then
              ((Except.error (MkReqErr.httpError st b) : Except MkReqErr (Option JVal)),
                ([] : List Nat))
            else (.ok (some (b.getD (.jobj []))), [])) = _
      by_cases h4 : 400 ≤ st
      · rw [if_pos h4, if_pos h4]
        simp
      · rw [if_neg h4, if_neg h4]
        simp
  | succ k ih =>
    intro i fuel hf hm htrans hresp
    cases fuel with
    | zero => omega
    | succ f =>
      have h0 : step i = .transportError (ms i) := by
        have h := htrans 0 (Nat.succ_pos k)
        rwa [Nat.add_zero] at h
      have hne : ¬ (i = maxRetries - 1) := by omega
      unfold mkReqGo
      rw [h0]
      show (if i = maxRetries - 1 then
              ((Except.error (MkReqErr.exhausted maxRetries (ms i))
                : Except MkReqErr (Option JVal)), ([] : List Nat))
            else
              ((mkReqGo step maxRetries f (i + 1)).1,
                2 ^ i :: (mkReqGo step maxRetries f (i + 1)).2)) = _
      rw [if_neg hne]
      have ih' := ih (i + 1) f (by omega) (by omega)
        (fun j hj => by
          have h := htrans (j + 1) (by omega)
          rwa [show i + (j + 1) = i + 1 + j by omega] at h)
        (by
          rw [show i + 1 + k = i + (k + 1) by omega]
          exact hresp)
      rw [ih']
      have hfun : ((fun j => 2 ^ (i + j)) ∘ Nat.succ) = (fun j => 2 ^ (i + 1 + j)) := by
        funext j
        show 2 ^ (i + (j + 1)) = 2 ^ (i + 1 + j)
        congr 1
        omega
      show ((if 400 ≤ st then Except.error (MkReqErr.httpError st b)
              else Except.ok (some (b.getD (JVal.jobj [])))),
            2 ^ i :: List.map (fun j => 2 ^ (i + 1 + j)) (List.range k)) = _
      congr 1
      rw [List.range_succ_eq_map, List.map_cons, List.map_map, hfun]
      simp

/-- Claim C2 (amended): transport-level failures are retried with
exponential back-off (sleeps `2^attempt`) up to `max_retries` for *every*
operation — the loop never inspects the HTTP method, so mutating operations
are retried exactly like reads; any HTTP response ends the loop without
retry: status ≥ 400 raises `NiFiAPIError` terminally, lower statuses return
the body. -/
theorem claim_C2_amended (method : HttpMethod) (maxRetries : Nat)
    (step : Nat → Attempt) (k st : Nat) (b : Option JVal) (ms : Nat → Txt)
    (hk : k < maxRetries)
    (htrans : ∀ j, j < k → step j = .transportError (ms j))
    (hresp : step k = .httpResponse st b) :
    makeRequest maxRetries method step =
      ((if 400 ≤ st then .error (.httpError st b)
        else .ok (some (b.getD (.jobj [])))),
       (List.range k).map (fun j => 2 ^ j)) := by
  have h := mkReqGo_spec step maxRetries st b ms k 0 maxRetries hk
    (by omega)
    (fun j hj => by
      have hj' := htrans j hj
      rwa [Nat.zero_add])
    (by
      rw [Nat.zero_add]
      exact hresp)
  unfold makeRequest
  rw [h]
  simp [Nat.zero_add]

/-- Witness for the amended C2: even a DELETE — a mutating method — with one
transport failure is retried once (sleep list `[1]`) and then returns the
200 response's body. -/
theorem claim_C2_amended_witness :
    makeRequest 3 .delete oneFailThenOk = (.ok (some (.jobj [])), [1]) := by
  have h := claim_C2_amended .delete 3 oneFailThenOk 1 200 (some (.jobj []))
    (fun _ => []) (by omega)
    (fun j hj => by
      have hj0 : j = 0 := by omega
      subst hj0
      rfl)
    rfl
  rw [h]
  rfl

/-- Claim C3: dispatching create-process-group with a missing or empty group
name yields a `success=false` envelope carrying the validation message, and
the backend collaborator is never invoked (the recorded call list is
empty). -/
theorem claim_C3 (resolve : Txt → ProcessedIntent) (be : Backend) (now : Nat)
    (st : ServerState) (req : MCPRequest)
    (hinit : st.clientInit = true)
    (hintent : (resolve req.query).intent = .create_process_group)
    (hname : (resolve req.query).parameters.process_group_name = none ∨
      (resolve req.query).parameters.process_group_name = some []) :
    (serverProcessQuery resolve be now st req).2.1.success = false ∧
    (serverProcessQuery resolve be now st req).2.1.message
      = codes "Error processing query: Operation failed: Process group name is required" ∧
    (serverProcessQuery resolve be now st req).2.2 = [] := by
  have htt : txtTruthy (resolve req.query).parameters.process_group_name = false := by
    rcases hname with h | h <;> rw [h] <;> rfl
  have hdisp : dispatchIntent be (resolve req.query).intent (resolve req.query).parameters
      = (.error (.validation (codes "Process group name is required")), []) := by
    rw [hintent]
    show createProcessGroupH be (resolve req.query).parameters = _
    unfold createProcessGroupH
    rw [htt]
    rfl
  have hexec : executeNifiOperation st.clientInit be (resolve req.query)
      = (.error (codes "Operation failed: " ++ codes "Process group name is required"),
         []) := by
    unfold executeNifiOperation
    rw [hinit]
    rw [if_neg (by decide)]
    rw [hdisp]
  refine ⟨?_, ?_, ?_⟩
  · simp only [serverProcessQuery]
    rw [hexec]
  · simp only [serverProcessQuery]
    rw [hexec]
    rfl
  · simp only [serverProcessQuery]
    rw [hexec]

set_option maxRecDepth 400000 in
/-- Witness for C3: the query `"create a process group"` resolves through
the pattern path to create-process-group with no group name. -/
theorem claim_C3_witness :
    (serverProcessQuery processWithPatterns beStub 0
      { clientInit := true, sessions := [] }
      { query := codes "create a process group", session_id := none }).2.1.success
      = false ∧
    (serverProcessQuery processWithPatterns beStub 0
      { clientInit := true, sessions := [] }
      { query := codes "create a process group", session_id := none }).2.2 = [] := by
  have h := claim_C3 processWithPatterns beStub 0
    { clientInit := true, sessions := [] }
    { query := codes "create a process group", session_id := none }
    rfl (by decide) (Or.inl (by decide))
  exact ⟨h.1, h.2.2⟩

/-- Claim C8: an intent with no concrete handler in the dispatcher's
conditional chain yields the placeholder envelope: `success=true`, a message
stating the intent "is not yet implemented", data echoing the raw intent tag
and the extracted parameters — and no backend call. -/
theorem claim_C8 (resolve : Txt → ProcessedIntent) (be : Backend) (now : Nat)
    (st : ServerState) (req : MCPRequest)
    (hinit : st.clientInit = true)
    (hunwired : unwired (resolve req.query).intent = true) :
    (serverProcessQuery resolve be now st req).2.1.success = true ∧
    (serverProcessQuery resolve be now st req).2.1.message
      = codes "Intent '" ++ (resolve req.query).intent.value
        ++ codes "' is not yet implemented" ∧
    (serverProcessQuery resolve be now st req).2.1.data
      = some (.notImplemented (resolve req.query).intent.value
          (resolve req.query).parameters) ∧
    (serverProcessQuery resolve be now st req).2.2 = [] := by
  have hexec : executeNifiOperation st.clientInit be (resolve req.query)
      = (.ok { message := codes "Intent '" ++ (resolve req.query).intent.value
                 ++ codes "' is not yet implemented",
               data := some (.notImplemented (resolve req.query).intent.value
                 (resolve req.query).parameters) }, []) := by
    unfold executeNifiOperation
    rw [hinit]
    rw [if_neg (by decide)]
    revert hunwired
    cases hI : (resolve req.query).intent <;> intro hu <;>
      first
      | exact absurd hu (by decide)
      | rfl
  refine ⟨?_, ?_, ?_, ?_⟩ <;>
    · simp only [serverProcessQuery]
      rw [hexec]

/-- Witness for C8 at the unwired intent `configure_processor`. -/
theorem claim_C8_witness :
    (serverProcessQuery
      (fun _ => { intent := .configure_processor, parameters := {},
                  confidence := 0, raw_query := codes "x" })
      beStub 0 { clientInit := true, sessions := [] }
      { query := codes "x", session_id := none }).2.1.success = true ∧
    (serverProcessQuery
      (fun _ => { intent := .configure_processor, parameters := {},
                  confidence := 0, raw_query := codes "x" })
      beStub 0 { clientInit := true, sessions := [] }
      { query := codes "x", session_id := none }).2.2 = [] := by
  have h := claim_C8
    (fun _ => { intent := .configure_processor, parameters := {},
                confidence := 0, raw_query := codes "x" })
    beStub 0 { clientInit := true, sessions := [] }
    { query := codes "x", session_id := none }
    rfl (by decide)
  exact ⟨h.1, h.2.2.2⟩

/-- Claim C10 (implicit): when the dispatch raises, `process_query` returns
a `success=false` envelope and the whole server state — the session store in
particular — is returned unchanged; when the dispatch succeeds and a session
id is supplied, the envelope is `success=true` and exactly that interaction
is appended to the session.  Hence session history records only queries
whose dispatch produced a success envelope. -/
theorem claim_C10 (resolve : Txt → ProcessedIntent) (be : Backend) (now : Nat)
    (st : ServerState) (req : MCPRequest) :
    (∀ e calls,
      executeNifiOperation st.clientInit be (resolve req.query) = (.error e, calls) →
      (serverProcessQuery resolve be now st req).1 = st ∧
      (serverProcessQuery resolve be now st req).2.1.success = false) ∧
    (∀ r calls sid,
      executeNifiOperation st.clientInit be (resolve req.query) = (.ok r, calls) →
      req.session_id = some sid →
      (serverProcessQuery resolve be now st req).1.sessions
        = updateSession st.sessions sid now (resolve req.query) r ∧
      (serverProcessQuery resolve be now st req).2.1.success = true) := by
  constructor
  · intro e calls he
    simp only [serverProcessQuery]
    rw [he]
    exact ⟨rfl, rfl⟩
  · intro r calls sid hr hsid
    simp only [serverProcessQuery]
    rw [hr, hsid]
    exact ⟨rfl, rfl⟩

/-- Witness for C10: an uninitialized backend client makes the dispatch
raise; the response is `success=false` and the state (with its session
store) is returned unchanged, even though a session id was supplied. -/
theorem claim_C10_witness :
    (serverProcessQuery processWithPatterns beStub 7
      { clientInit := false,
        sessions := [(codes "s", { created_at := 0, queries := [] })] }
      { query := codes "help", session_id := some (codes "s") }).1
      = { clientInit := false,
          sessions := [(codes "s", { created_at := 0, queries := [] })] } ∧
    (serverProcessQuery processWithPatterns beStub 7
      { clientInit := false,
        sessions := [(codes "s", { created_at := 0, queries := [] })] }
      { query := codes "help", session_id := some (codes "s") }).2.1.success
      = false :=
  (claim_C10 processWithPatterns beStub 7
    { clientInit := false,
      sessions := [(codes "s", { created_at := 0, queries := [] })] }
    { query := codes "help", session_id := some (codes "s") }).1
    (codes "NiFi client not initialized") [] rfl

/-! Lemmas about the session store (for claim C7). -/

theorem lookupSession_cons_eq {e : Txt × Session} {t : Sessions} {sid : Txt}
    (he : e.1 = sid) : lookupSession (e :: t) sid = some e.2 := by
  unfold lookupSession
  rw [List.find?_cons_of_pos _ (by simpa using he)]
  rfl

theorem lookupSession_cons_ne {e : Txt × Session} {t : Sessions} {sid : Txt}
    (he : ¬ e.1 = sid) : lookupSession (e :: t) sid = lookupSession t sid := by
  unfold lookupSession
  rw [List.find?_cons_of_neg _ (by simpa using he)]

theorem lookupSession_setSession {ss : Sessions} {sid : Txt} {x : Session}
    (s : Session) (h : lookupSession ss sid = some x) :
    lookupSession (setSession ss sid s) sid = some s := by
  induction ss with
  | nil => simp [lookupSession] at h
  | cons e t ih =>
    by_cases he : e.1 = sid
    · simp only [setSession, List.map_cons, if_pos he]
      exact lookupSession_cons_eq rfl
    · simp only [setSession, List.map_cons, if_neg he]
      rw [lookupSession_cons_ne he]
      rw [lookupSession_cons_ne he] at h
      exact ih h

theorem lookupSession_append_right (ss : Sessions) (sid : Txt) (s : Session)
    (h : lookupSession ss sid = none) :
    lookupSession (ss ++ [(sid, s)]) sid = some s := by
  have hf : ss.find? (fun e => e.1 = sid) = none := by
    unfold lookupSession at h
    exact Option.map_eq_none'.mp h
  unfold lookupSession
  rw [List.find?_append, hf, Option.none_or]
  rw [List.find?_cons_of_pos _ (by simp)]
  rfl

theorem setSession_append (ss : Sessions) (sid : Txt) (new s : Session)
    (h : lookupSession ss sid = none) :
    setSession (ss ++ [(sid, new)]) sid s = ss ++ [(sid, s)] := by
  have hf := List.find?_eq_none.mp (Option.map_eq_none'.mp h)
  unfold setSession
  rw [List.map_append]
  congr 1
  · calc ss.map (fun e => if e.1 = sid then (sid, s) else e)
        = ss.map id := List.map_congr_left (fun e he => by
          have hne : ¬ (e.1 = sid) := by simpa using hf e he
          rw [if_neg hne]
          rfl)
      _ = ss := List.map_id ss
  · simp

theorem updateSession_create (ss : Sessions) (sid : Txt) (now : Nat)
    (pi : ProcessedIntent) (res : OpResult) (h : lookupSession ss sid = none) :
    updateSession ss sid now pi res
      = ss ++ [(sid, { created_at := now, queries := [recOf (now, pi, res)] })] := by
  simp only [updateSession, h]
  rw [lookupSession_append_right ss sid _ h]
  simp only [Option.getD_some, List.nil_append]
  rw [if_neg (by simp)]
  exact setSession_append ss sid _ _ h

theorem updateSession_existing (ss : Sessions) (sid : Txt) (now : Nat)
    (pi : ProcessedIntent) (res : OpResult) (cur : Session)
    (h : lookupSession ss sid = some cur) :
    updateSession ss sid now pi res
      = setSession ss sid { cur with queries :=
          (if (cur.queries ++ [recOf (now, pi, res)]).length > 10
           then lastN 10 (cur.queries ++ [recOf (now, pi, res)])
           else cur.queries ++ [recOf (now, pi, res)]) } := by
  simp only [updateSession, h, Option.getD_some]
  rfl

theorem lastN_of_le {l : List SessionRec} {n : Nat} (h : l.length ≤ n) :
    lastN n l = l := by
  unfold lastN
  rw [show l.length - n = 0 from by omega]
  exact List.drop_zero l

theorem lastN_length_le (n : Nat) (l : List SessionRec) : (lastN n l).length ≤ n := by
  unfold lastN
  rw [List.length_drop]
  omega

/-- Truncating to the last `n` before appending more and truncating again is
the same as truncating the full list once. -/
theorem lastN_append_lastN (n : Nat) (A B : List SessionRec) :
    lastN n (lastN n A ++ B) = lastN n (A ++ B) := by
  by_cases h : A.length ≤ n
  · rw [lastN_of_le h]
  · unfold lastN
    rw [List.length_append, List.length_append, List.length_drop,
      List.drop_append_eq_append_drop, List.drop_append_eq_append_drop,
      List.drop_drop, List.length_drop]
    congr 2 <;> omega

theorem appendAll_cons (ss : Sessions) (sid : Txt)
    (it : Nat × ProcessedIntent × OpResult)
    (rest : List (Nat × ProcessedIntent × OpResult)) :
    appendAll ss sid (it :: rest)
      = appendAll (updateSession ss sid it.1 it.2.1 it.2.2) sid rest := rfl

/-- The bounded-log invariant: once the session exists with at most 10
entries, appending a sequence leaves exactly the last 10 of (existing ++
appended), in order. -/
theorem appendAll_existing (sid : Txt) :
    ∀ (items : List (Nat × ProcessedIntent × OpResult)) (ss : Sessions) (cur : Session),
      lookupSession ss sid = some cur →
      cur.queries.length ≤ 10 →
      sessionQueries (appendAll ss sid items) sid
        = lastN 10 (cur.queries ++ items.map recOf) := by
  intro items
  induction items with
  | nil =>
    intro ss cur h hlen
    show sessionQueries ss sid = _
    rw [List.map_nil, List.append_nil, lastN_of_le hlen]
    simp [sessionQueries, h]
  | cons it rest ih =>
    obtain ⟨tnow, tpi, tres⟩ := it
    intro ss cur h hlen
    rw [appendAll_cons]
    have hupd := updateSession_existing ss sid tnow tpi tres cur h
    have hlook : lookupSession (updateSession ss sid tnow tpi tres) sid
        = some { cur with queries :=
            (if (cur.queries ++ [recOf (tnow, tpi, tres)]).length > 10
             then lastN 10 (cur.queries ++ [recOf (tnow, tpi, tres)])
             else cur.queries ++ [recOf (tnow, tpi, tres)]) } := by
      rw [hupd]
      exact lookupSession_setSession _ h
    have hlen' : (if (cur.queries ++ [recOf (tnow, tpi, tres)]).length > 10
        then lastN 10 (cur.queries ++ [recOf (tnow, tpi, tres)])
        else cur.queries ++ [recOf (tnow, tpi, tres)]).length ≤ 10 := by
      split
      · exact lastN_length_le 10 _
      · rename_i hgt
        omega
    have hrec := ih _ _ hlook hlen'
    rw [hrec]
    show lastN 10 ((if (cur.queries ++ [recOf (tnow, tpi, tres)]).length > 10
        then lastN 10 (cur.queries ++ [recOf (tnow, tpi, tres)])
        else cur.queries ++ [recOf (tnow, tpi, tres)]) ++ rest.map recOf) = _
    split
    · rw [lastN_append_lastN, List.append_assoc]
      rfl
    · rw [List.append_assoc]
      rfl

/-- Claim C7: starting from a store with no entry for the session id,
appending `n` interaction records leaves exactly the last `min(n, 10)` of
them, in original chronological order. -/
theorem claim_C7 (sid : Txt) (items : List (Nat × ProcessedIntent × OpResult))
    (ss0 : Sessions) (h0 : lookupSession ss0 sid = none) :
    sessionQueries (appendAll ss0 sid items) sid = lastN 10 (items.map recOf) := by
  cases items with
  | nil =>
    show sessionQueries ss0 sid = _
    simp [sessionQueries, h0, lastN]
  | cons it rest =>
    obtain ⟨tnow, tpi, tres⟩ := it
    rw [appendAll_cons]
    have hcr := updateSession_create ss0 sid tnow tpi tres h0
    have hlook : lookupSession (updateSession ss0 sid tnow tpi tres) sid
        = some { created_at := tnow, queries := [recOf (tnow, tpi, tres)] } := by
      rw [hcr]
      exact lookupSession_append_right ss0 sid _ h0
    have h := appendAll_existing sid rest _ _ hlook (by simp)
    rw [h]
    rfl

set_option maxRecDepth 40000 in
/-- Witness for C7: appending 15 records to a fresh session leaves exactly
the last 10, in order. -/
theorem claim_C7_witness :
    sessionQueries (appendAll [] (codes "s") fifteenItems) (codes "s")
      = lastN 10 (fifteenItems.map recOf) ∧
    (lastN 10 (fifteenItems.map recOf)).length = 10 ∧
    fifteenItems.length = 15 :=
  ⟨claim_C7 (codes "s") fifteenItems [] rfl, by decide, by decide⟩

end OpenFlow
